import Mathlib

/-!
Verification development for the GR-iPiC2D covariant particle-in-cell code
(files src/Covariant/iPiC_2D3V_cov_yee.py and
src/Covariant/iPiC_2D3V_cov_yee_staggerd_timestep.py).

Modelling conventions:
* 2D grid arrays are total functions ℕ → ℕ → ℚ; an array allocated with
  numpy.zeros of shape (a, b) and filled on slices becomes a function that
  returns the assigned formula on the indices the code writes and 0
  elsewhere.  Machine floats are embedded as exact rationals.
* Particle arrays are functions ℕ → ℚ, read below the particle count.
* Stateful loops become explicit folds or fuel-based recursion.
* numpy.linalg.inv raising on a singular matrix becomes an Option-valued
  closed-form 3x3 inverse returning none exactly when the determinant is 0.
-/

namespace GRiPiC

/-- Grid and particle parameters of the simulation (nx = nxc, ny = nyc;
nxn = nxc+1, nyn = nyc+1, dx = Lx/nxc, dy = Ly/nyc as in the source). -/
structure Par where
  nxc : ℕ
  nyc : ℕ
  npart : ℕ
  Lx : ℚ
  Ly : ℚ
  dt : ℚ

def Par.nxn (p : Par) : ℕ := p.nxc + 1

def Par.nyn (p : Par) : ℕ := p.nyc + 1

def Par.dx (p : Par) : ℚ := p.Lx / p.nxc

def Par.dy (p : Par) : ℚ := p.Ly / p.nyc

/-- A 2D grid array (field component on one of the staggered grids). -/
abbrev Field2 : Type := ℕ → ℕ → ℚ

/-- A per-particle array (positions, velocities, charges). -/
abbrev Vec : Type := ℕ → ℚ

/-- The source/target grid-type tags of the averaging and directional
derivative operators (the avgtype and dertype strings of the source). -/
inductive AvgT
  | C2UD | C2LR | UD2N | LR2N | N2LR | N2UD | LR2C | UD2C
  deriving DecidableEq

/-- Average operator, translated branch by branch from the function avg of
iPiC_2D3V_cov_yee.py (lines 118-172; identical in the staggered file,
lines 821-875).  Each numpy slice assignment becomes the corresponding
index-guarded formula; unwritten entries keep the zeros initialisation. -/
def avg (p : Par) (field : Field2) : AvgT → Field2
  | .C2UD => fun i j =>
      if i < p.nxc then
        if j = 0 then (field i 0 + field i (p.nyc - 1)) / 2
        else if j < p.nyc then (field i j + field i (j - 1)) / 2
        else if j = p.nyc then (field i 0 + field i (p.nyc - 1)) / 2
        else 0
      else 0
  | .C2LR => fun i j =>
      if j < p.nyc then
        if i = 0 then (field 0 j + field (p.nxc - 1) j) / 2
        else if i < p.nxc then (field i j + field (i - 1) j) / 2
        else if i = p.nxc then (field 0 j + field (p.nxc - 1) j) / 2
        else 0
      else 0
  | .UD2N => fun i j =>
      if j < p.nyn then
        if i = 0 then (field 0 j + field (p.nxc - 1) j) / 2
        else if i < p.nxc then (field i j + field (i - 1) j) / 2
        else if i = p.nxc then (field 0 j + field (p.nxc - 1) j) / 2
        else 0
      else 0
  | .LR2N => fun i j =>
      if i < p.nxn then
        if j = 0 then (field i 0 + field i (p.nyc - 1)) / 2
        else if j < p.nyc then (field i j + field i (j - 1)) / 2
        else if j = p.nyc then (field i 0 + field i (p.nyc - 1)) / 2
        else 0
      else 0
  | .N2LR => fun i j =>
      if i < p.nxn then
        if j < p.nyc then (field i (j + 1) + field i j) / 2 else 0
      else 0
  | .N2UD => fun i j =>
      if i < p.nxc then
        if j < p.nyn then (field (i + 1) j + field i j) / 2 else 0
      else 0
  | .LR2C => fun i j =>
      if i < p.nxc then
        if j < p.nyc then (field (i + 1) j + field i j) / 2 else 0
      else 0
  | .UD2C => fun i j =>
      if i < p.nxc then
        if j < p.nyc then (field i (j + 1) + field i j) / 2 else 0
      else 0

/-- Directional derivative operator, translated branch by branch from the
function dirder of iPiC_2D3V_cov_yee.py (lines 193-247; identical in the
staggered file, lines 747-801). -/
def dirder (p : Par) (field : Field2) : AvgT → Field2
  | .C2UD => fun i j =>
      if i < p.nxc then
        if j = 0 then (field i 0 - field i (p.nyc - 1)) / p.dy
        else if j < p.nyc then (field i j - field i (j - 1)) / p.dy
        else if j = p.nyc then (field i 0 - field i (p.nyc - 1)) / p.dy
        else 0
      else 0
  | .C2LR => fun i j =>
      if j < p.nyc then
        if i = 0 then (field 0 j - field (p.nxc - 1) j) / p.dx
        else if i < p.nxc then (field i j - field (i - 1) j) / p.dx
        else if i = p.nxc then (field 0 j - field (p.nxc - 1) j) / p.dx
        else 0
      else 0
  | .UD2N => fun i j =>
      if j < p.nyn then
        if i = 0 then (field 0 j - field (p.nxc - 1) j) / p.dx
        else if i < p.nxc then (field i j - field (i - 1) j) / p.dx
        else if i = p.nxc then (field 0 j - field (p.nxc - 1) j) / p.dx
        else 0
      else 0
  | .LR2N => fun i j =>
      if i < p.nxn then
        if j = 0 then (field i 0 - field i (p.nyc - 1)) / p.dy
        else if j < p.nyc then (field i j - field i (j - 1)) / p.dy
        else if j = p.nyc then (field i 0 - field i (p.nyc - 1)) / p.dy
        else 0
      else 0
  | .N2LR => fun i j =>
      if i < p.nxn then
        if j < p.nyc then (field i (j + 1) - field i j) / p.dy else 0
      else 0
  | .N2UD => fun i j =>
      if i < p.nxc then
        if j < p.nyn then (field (i + 1) j - field i j) / p.dx else 0
      else 0
  | .LR2C => fun i j =>
      if i < p.nxc then
        if j < p.nyc then (field (i + 1) j - field i j) / p.dx else 0
      else 0
  | .UD2C => fun i j =>
      if i < p.nxc then
        if j < p.nyc then (field i (j + 1) - field i j) / p.dy else 0
      else 0

/-- Metric-tensor entries and Jacobian determinants consumed by the curl
and divergence operators (the module-level arrays g11e..g33e, g11b..g33b,
J_LR, J_UD, J_c, J_n of iPiC_2D3V_cov_yee.py, lines 50-73). -/
structure Geom where
  g11e : Field2
  g12e : Field2
  g13e : Field2
  g21e : Field2
  g22e : Field2
  g23e : Field2
  g31e : Field2
  g32e : Field2
  g33e : Field2
  g11b : Field2
  g12b : Field2
  g13b : Field2
  g21b : Field2
  g22b : Field2
  g23b : Field2
  g31b : Field2
  g32b : Field2
  g33b : Field2
  J_LR : Field2
  J_UD : Field2
  J_c : Field2
  J_n : Field2

/-- The identity metric: the values iPiC_2D3V_cov_yee.py assigns to the
metric arrays (np.ones for the diagonal entries and the determinants,
np.zeros for the off-diagonal entries, lines 50-73). -/
def identityGeom (_p : Par) : Geom where
  g11e := fun _ _ => 1
  g12e := fun _ _ => 0
  g13e := fun _ _ => 0
  g21e := fun _ _ => 0
  g22e := fun _ _ => 1
  g23e := fun _ _ => 0
  g31e := fun _ _ => 0
  g32e := fun _ _ => 0
  g33e := fun _ _ => 1
  g11b := fun _ _ => 1
  g12b := fun _ _ => 0
  g13b := fun _ _ => 0
  g21b := fun _ _ => 0
  g22b := fun _ _ => 1
  g23b := fun _ _ => 0
  g31b := fun _ _ => 0
  g32b := fun _ _ => 0
  g33b := fun _ _ => 1
  J_LR := fun _ _ => 1
  J_UD := fun _ _ => 1
  J_c := fun _ _ => 1
  J_n := fun _ _ => 1

/-- Curl of an E-type field triple, x component (curl with fieldtype E in
iPiC_2D3V_cov_yee.py, line 180). -/
def curlE_x (p : Par) (G : Geom) (fx fy fz : Field2) : Field2 := fun i j =>
  (dirder p (avg p (fun a b => G.g31e a b * fx a b) .LR2C) .C2UD i j
    + dirder p (avg p (fun a b => G.g32e a b * fy a b) .UD2C) .C2UD i j
    + dirder p (fun a b => G.g33e a b * fz a b) .C2UD i j) / G.J_UD i j

/-- Curl of an E-type field triple, y component (line 181 of the source). -/
def curlE_y (p : Par) (G : Geom) (fx fy fz : Field2) : Field2 := fun i j =>
  -((dirder p (avg p (fun a b => G.g31e a b * fx a b) .LR2C) .C2LR i j
    + dirder p (avg p (fun a b => G.g32e a b * fy a b) .UD2C) .C2LR i j
    + dirder p (fun a b => G.g33e a b * fz a b) .C2LR i j) / G.J_LR i j)

/-- Curl of an E-type field triple, z component (lines 182-183 of the
source). -/
def curlE_z (p : Par) (G : Geom) (fx fy fz : Field2) : Field2 := fun i j =>
  (dirder p (avg p (avg p (fun a b => G.g21e a b * fx a b) .LR2C) .C2UD) .UD2N i j
    + dirder p (fun a b => G.g22e a b * fy a b) .UD2N i j
    + dirder p (avg p (fun a b => G.g13e a b * fz a b) .C2UD) .UD2N i j
    - dirder p (fun a b => G.g11e a b * fx a b) .LR2N i j
    + dirder p (avg p (avg p (fun a b => G.g12e a b * fy a b) .UD2C) .C2LR) .LR2N i j
    + dirder p (avg p (fun a b => G.g13e a b * fz a b) .C2LR) .LR2N i j) / G.J_n i j

/-- Curl of a B-type field triple, x component (curl with fieldtype B in
iPiC_2D3V_cov_yee.py, line 186). -/
def curlB_x (p : Par) (G : Geom) (fx fy fz : Field2) : Field2 := fun i j =>
  (dirder p (avg p (fun a b => G.g31b a b * fx a b) .UD2N) .N2LR i j
    + dirder p (avg p (fun a b => G.g32b a b * fy a b) .LR2N) .N2LR i j
    + dirder p (fun a b => G.g33b a b * fz a b) .N2LR i j) / G.J_LR i j

/-- Curl of a B-type field triple, y component (line 187 of the source). -/
def curlB_y (p : Par) (G : Geom) (fx fy fz : Field2) : Field2 := fun i j =>
  -((dirder p (avg p (fun a b => G.g31b a b * fx a b) .UD2N) .N2UD i j
    + dirder p (avg p (fun a b => G.g32b a b * fy a b) .LR2N) .N2UD i j
    + dirder p (fun a b => G.g33b a b * fz a b) .N2UD i j) / G.J_UD i j)

/-- Curl of a B-type field triple, z component (lines 188-189 of the
source). -/
def curlB_z (p : Par) (G : Geom) (fx fy fz : Field2) : Field2 := fun i j =>
  (dirder p (avg p (avg p (fun a b => G.g21b a b * fx a b) .UD2N) .N2LR) .LR2C i j
    + dirder p (fun a b => G.g22b a b * fy a b) .LR2C i j
    + dirder p (avg p (fun a b => G.g13b a b * fz a b) .N2LR) .LR2C i j
    - dirder p (fun a b => G.g11b a b * fx a b) .UD2C i j
    + dirder p (avg p (avg p (fun a b => G.g12b a b * fy a b) .LR2N) .N2UD) .UD2C i j
    + dirder p (avg p (fun a b => G.g13b a b * fz a b) .N2UD) .UD2C i j) / G.J_c i j

/-- Divergence of an E-type field triple (function div with fieldtype E in
iPiC_2D3V_cov_yee_staggerd_timestep.py, line 917); the fieldz argument of
the source is unused there and omitted. -/
def div_E (p : Par) (G : Geom) (fx fy : Field2) : Field2 := fun i j =>
  (dirder p (fun a b => G.J_LR a b * fx a b) .LR2C i j
    + dirder p (fun a b => G.J_UD a b * fy a b) .UD2C i j) / G.J_c i j

/-- Divergence of a B-type field triple (function div with fieldtype B in
iPiC_2D3V_cov_yee_staggerd_timestep.py, line 920). -/
def div_B (p : Par) (G : Geom) (fx fy : Field2) : Field2 := fun i j =>
  (dirder p (fun a b => G.J_UD a b * fx a b) .UD2N i j
    + dirder p (fun a b => G.J_LR a b * fy a b) .LR2N i j) / G.J_n i j

/-- Modelled from the spec: the textbook flat-space finite-difference curl
of an E-type field, x component, d(fieldz)/dy on the UD grid with the
periodic wrap (spec section 4.2). -/
def flatCurlE_x (p : Par) (fz : Field2) : Field2 := fun i j =>
  if i < p.nxc then
    if j = 0 then (fz i 0 - fz i (p.nyc - 1)) / p.dy
    else if j < p.nyc then (fz i j - fz i (j - 1)) / p.dy
    else if j = p.nyc then (fz i 0 - fz i (p.nyc - 1)) / p.dy
    else 0
  else 0

/-- Modelled from the spec: flat-space curl of an E-type field,
y component, minus d(fieldz)/dx on the LR grid. -/
def flatCurlE_y (p : Par) (fz : Field2) : Field2 := fun i j =>
  -(if j < p.nyc then
      if i = 0 then (fz 0 j - fz (p.nxc - 1) j) / p.dx
      else if i < p.nxc then (fz i j - fz (i - 1) j) / p.dx
      else if i = p.nxc then (fz 0 j - fz (p.nxc - 1) j) / p.dx
      else 0
    else 0)

/-- Modelled from the spec: flat-space curl of an E-type field,
z component, d(fieldy)/dx minus d(fieldx)/dy on the N grid. -/
def flatCurlE_z (p : Par) (fx fy : Field2) : Field2 := fun i j =>
  (if j < p.nyn then
      if i = 0 then (fy 0 j - fy (p.nxc - 1) j) / p.dx
      else if i < p.nxc then (fy i j - fy (i - 1) j) / p.dx
      else if i = p.nxc then (fy 0 j - fy (p.nxc - 1) j) / p.dx
      else 0
    else 0)
  - (if i < p.nxn then
      if j = 0 then (fx i 0 - fx i (p.nyc - 1)) / p.dy
      else if j < p.nyc then (fx i j - fx i (j - 1)) / p.dy
      else if j = p.nyc then (fx i 0 - fx i (p.nyc - 1)) / p.dy
      else 0
    else 0)

/-- Modelled from the spec: flat-space curl of a B-type field, x component,
d(fieldz)/dy on the LR grid. -/
def flatCurlB_x (p : Par) (fz : Field2) : Field2 := fun i j =>
  if i < p.nxn then
    if j < p.nyc then (fz i (j + 1) - fz i j) / p.dy else 0
  else 0

/-- Modelled from the spec: flat-space curl of a B-type field, y component,
minus d(fieldz)/dx on the UD grid. -/
def flatCurlB_y (p : Par) (fz : Field2) : Field2 := fun i j =>
  -(if i < p.nxc then
      if j < p.nyn then (fz (i + 1) j - fz i j) / p.dx else 0
    else 0)

/-- Modelled from the spec: flat-space curl of a B-type field, z component,
d(fieldy)/dx minus d(fieldx)/dy on the C grid. -/
def flatCurlB_z (p : Par) (fx fy : Field2) : Field2 := fun i j =>
  (if i < p.nxc then
      if j < p.nyc then (fy (i + 1) j - fy i j) / p.dx else 0
    else 0)
  - (if i < p.nxc then
      if j < p.nyc then (fx i (j + 1) - fx i j) / p.dy else 0
    else 0)

/-- Modelled from the spec: flat-space divergence of an E-type field,
d(fieldx)/dx + d(fieldy)/dy on the C grid. -/
def flatDiv_E (p : Par) (fx fy : Field2) : Field2 := fun i j =>
  (if i < p.nxc then
      if j < p.nyc then (fx (i + 1) j - fx i j) / p.dx else 0
    else 0)
  + (if i < p.nxc then
      if j < p.nyc then (fy i (j + 1) - fy i j) / p.dy else 0
    else 0)

/-- Modelled from the spec: flat-space divergence of a B-type field,
d(fieldx)/dx + d(fieldy)/dy on the N grid. -/
def flatDiv_B (p : Par) (fx fy : Field2) : Field2 := fun i j =>
  (if j < p.nyn then
      if i = 0 then (fx 0 j - fx (p.nxc - 1) j) / p.dx
      else if i < p.nxc then (fx i j - fx (i - 1) j) / p.dx
      else if i = p.nxc then (fx 0 j - fx (p.nxc - 1) j) / p.dx
      else 0
    else 0)
  + (if i < p.nxn then
      if j = 0 then (fy i 0 - fy i (p.nyc - 1)) / p.dy
      else if j < p.nyc then (fy i j - fy i (j - 1)) / p.dy
      else if j = p.nyc then (fy i 0 - fy i (p.nyc - 1)) / p.dy
      else 0
    else 0)

theorem avg_zero (p : Par) (t : AvgT) :
    avg p (fun _ _ => (0 : ℚ)) t = fun _ _ => 0 := by
  funext i j
  cases t <;> simp [avg]

theorem dirder_zero (p : Par) (t : AvgT) :
    dirder p (fun _ _ => (0 : ℚ)) t = fun _ _ => 0 := by
  funext i j
  cases t <;> simp [dirder]

/-- C5: with the identity metric tensor and unit Jacobian determinant at
every grid point, the E-type and B-type curl operators and both divergence
operators coincide everywhere with the standard flat-space
finite-difference curl and divergence (curl_x = d(fieldz)/dy,
curl_y = -d(fieldz)/dx, curl_z = d(fieldy)/dx - d(fieldx)/dy,
div = d(fieldx)/dx + d(fieldy)/dy on the appropriate staggered grids),
for every input field triple. -/
theorem c5_flat_space_reduction (p : Par) (fx fy fz : Field2) (i j : ℕ) :
    curlE_x p (identityGeom p) fx fy fz i j = flatCurlE_x p fz i j
    ∧ curlE_y p (identityGeom p) fx fy fz i j = flatCurlE_y p fz i j
    ∧ curlE_z p (identityGeom p) fx fy fz i j = flatCurlE_z p fx fy i j
    ∧ curlB_x p (identityGeom p) fx fy fz i j = flatCurlB_x p fz i j
    ∧ curlB_y p (identityGeom p) fx fy fz i j = flatCurlB_y p fz i j
    ∧ curlB_z p (identityGeom p) fx fy fz i j = flatCurlB_z p fx fy i j
    ∧ div_E p (identityGeom p) fx fy i j = flatDiv_E p fx fy i j
    ∧ div_B p (identityGeom p) fx fy i j = flatDiv_B p fx fy i j := by
  refine ⟨?_, ?_, ?_, ?_, ?_, ?_, ?_, ?_⟩
  · simp only [curlE_x, identityGeom, zero_mul, one_mul, avg_zero, dirder_zero,
      zero_add, div_one]
    rfl
  · simp only [curlE_y, identityGeom, zero_mul, one_mul, avg_zero, dirder_zero,
      zero_add, div_one]
    rfl
  · simp only [curlE_z, identityGeom, zero_mul, one_mul, avg_zero, dirder_zero,
      zero_add, add_zero, zero_sub, sub_zero, div_one]
    rfl
  · simp only [curlB_x, identityGeom, zero_mul, one_mul, avg_zero, dirder_zero,
      zero_add, div_one]
    rfl
  · simp only [curlB_y, identityGeom, zero_mul, one_mul, avg_zero, dirder_zero,
      zero_add, div_one]
    rfl
  · simp only [curlB_z, identityGeom, zero_mul, one_mul, avg_zero, dirder_zero,
      zero_add, add_zero, zero_sub, sub_zero, div_one]
    rfl
  · simp only [div_E, identityGeom, one_mul, div_one]
    rfl
  · simp only [div_B, identityGeom, one_mul, div_one]
    rfl

/-- A physical state handled by the Krylov codec: the three E-field
component arrays and the three particle velocity arrays. -/
structure Phys where
  Ex : Field2
  Ey : Field2
  Ez : Field2
  u : Vec
  v : Vec
  w : Vec

/-- Flattening of a physical state into the Krylov vector, translated from
phys_to_krylov of iPiC_2D3V_cov_yee.py (lines 249-263; identical in the
staggered file).  Row-major reshape of the (nxn,nyc), (nxc,nyn), (nxc,nyc)
field arrays followed by the three velocity blocks of length npart;
entries beyond the vector length keep the zeros initialisation. -/
def phys_to_krylov (p : Par) (s : Phys) : Vec := fun n =>
  if n < p.nxn * p.nyc then s.Ex (n / p.nyc) (n % p.nyc)
  else if n < p.nxn * p.nyc + p.nxc * p.nyn then
    s.Ey ((n - p.nxn * p.nyc) / p.nyn) ((n - p.nxn * p.nyc) % p.nyn)
  else if n < p.nxn * p.nyc + p.nxc * p.nyn + p.nxc * p.nyc then
    s.Ez ((n - (p.nxn * p.nyc + p.nxc * p.nyn)) / p.nyc)
      ((n - (p.nxn * p.nyc + p.nxc * p.nyn)) % p.nyc)
  else if n < p.nxn * p.nyc + p.nxc * p.nyn + p.nxc * p.nyc + p.npart then
    s.u (n - (p.nxn * p.nyc + p.nxc * p.nyn + p.nxc * p.nyc))
  else if n < p.nxn * p.nyc + p.nxc * p.nyn + p.nxc * p.nyc + 2 * p.npart then
    s.v (n - (p.nxn * p.nyc + p.nxc * p.nyn + p.nxc * p.nyc + p.npart))
  else if n < p.nxn * p.nyc + p.nxc * p.nyn + p.nxc * p.nyc + 3 * p.npart then
    s.w (n - (p.nxn * p.nyc + p.nxc * p.nyn + p.nxc * p.nyc + 2 * p.npart))
  else 0

/-- Unflattening of a Krylov vector into a physical state, translated from
krylov_to_phys of iPiC_2D3V_cov_yee.py (lines 265-278; identical in the
staggered file). -/
def krylov_to_phys (p : Par) (xk : Vec) : Phys where
  Ex := fun i j => xk (i * p.nyc + j)
  Ey := fun i j => xk (p.nxn * p.nyc + (i * p.nyn + j))
  Ez := fun i j => xk (p.nxn * p.nyc + p.nxc * p.nyn + (i * p.nyc + j))
  u := fun k => xk (p.nxn * p.nyc + p.nxc * p.nyn + p.nxc * p.nyc + k)
  v := fun k => xk (p.nxn * p.nyc + p.nxc * p.nyn + p.nxc * p.nyc + p.npart + k)
  w := fun k =>
    xk (p.nxn * p.nyc + p.nxc * p.nyn + p.nxc * p.nyc + 2 * p.npart + k)

theorem roundtrip_Ex (p : Par) (s : Phys) {i j : ℕ} (hi : i < p.nxn)
    (hj : j < p.nyc) :
    (krylov_to_phys p (phys_to_krylov p s)).Ex i j = s.Ex i j := by
  have hn : i * p.nyc + j < p.nxn * p.nyc := by
    calc i * p.nyc + j < i * p.nyc + p.nyc := by omega
    _ = (i + 1) * p.nyc := by ring
    _ ≤ p.nxn * p.nyc := Nat.mul_le_mul_right _ hi
  have hdiv : (i * p.nyc + j) / p.nyc = i := by
    rw [Nat.mul_comm, Nat.mul_add_div (by omega)]
    simp [Nat.div_eq_of_lt hj]
  have hmod : (i * p.nyc + j) % p.nyc = j := by
    rw [Nat.mul_comm, Nat.mul_add_mod]
    exact Nat.mod_eq_of_lt hj
  simp only [krylov_to_phys, phys_to_krylov, if_pos hn, hdiv, hmod]

theorem roundtrip_Ey (p : Par) (s : Phys) {i j : ℕ} (hi : i < p.nxc)
    (hj : j < p.nyn) :
    (krylov_to_phys p (phys_to_krylov p s)).Ey i j = s.Ey i j := by
  have hm : i * p.nyn + j < p.nxc * p.nyn := by
    calc i * p.nyn + j < i * p.nyn + p.nyn := by omega
    _ = (i + 1) * p.nyn := by ring
    _ ≤ p.nxc * p.nyn := Nat.mul_le_mul_right _ hi
  have h1 : ¬ p.nxn * p.nyc + (i * p.nyn + j) < p.nxn * p.nyc := by omega
  have h2 : p.nxn * p.nyc + (i * p.nyn + j)
      < p.nxn * p.nyc + p.nxc * p.nyn := by omega
  have hsub : p.nxn * p.nyc + (i * p.nyn + j) - p.nxn * p.nyc
      = i * p.nyn + j := by omega
  have hdiv : (i * p.nyn + j) / p.nyn = i := by
    rw [Nat.mul_comm, Nat.mul_add_div (by omega)]
    simp [Nat.div_eq_of_lt hj]
  have hmod : (i * p.nyn + j) % p.nyn = j := by
    rw [Nat.mul_comm, Nat.mul_add_mod]
    exact Nat.mod_eq_of_lt hj
  simp only [krylov_to_phys, phys_to_krylov, if_neg h1, if_pos h2, hsub,
    hdiv, hmod]

theorem roundtrip_Ez (p : Par) (s : Phys) {i j : ℕ} (hi : i < p.nxc)
    (hj : j < p.nyc) :
    (krylov_to_phys p (phys_to_krylov p s)).Ez i j = s.Ez i j := by
  have hm : i * p.nyc + j < p.nxc * p.nyc := by
    calc i * p.nyc + j < i * p.nyc + p.nyc := by omega
    _ = (i + 1) * p.nyc := by ring
    _ ≤ p.nxc * p.nyc := Nat.mul_le_mul_right _ hi
  have h1 : ¬ p.nxn * p.nyc + p.nxc * p.nyn + (i * p.nyc + j)
      < p.nxn * p.nyc := by omega
  have h2 : ¬ p.nxn * p.nyc + p.nxc * p.nyn + (i * p.nyc + j)
      < p.nxn * p.nyc + p.nxc * p.nyn := by omega
  have h3 : p.nxn * p.nyc + p.nxc * p.nyn + (i * p.nyc + j)
      < p.nxn * p.nyc + p.nxc * p.nyn + p.nxc * p.nyc := by omega
  have hsub : p.nxn * p.nyc + p.nxc * p.nyn + (i * p.nyc + j)
      - (p.nxn * p.nyc + p.nxc * p.nyn) = i * p.nyc + j := by omega
  have hdiv : (i * p.nyc + j) / p.nyc = i := by
    rw [Nat.mul_comm, Nat.mul_add_div (by omega)]
    simp [Nat.div_eq_of_lt hj]
  have hmod : (i * p.nyc + j) % p.nyc = j := by
    rw [Nat.mul_comm, Nat.mul_add_mod]
    exact Nat.mod_eq_of_lt hj
  simp only [krylov_to_phys, phys_to_krylov, if_neg h1, if_neg h2, if_pos h3,
    hsub, hdiv, hmod]

theorem roundtrip_u (p : Par) (s : Phys) {k : ℕ} (hk : k < p.npart) :
    (krylov_to_phys p (phys_to_krylov p s)).u k = s.u k := by
  have h1 : ¬ p.nxn * p.nyc + p.nxc * p.nyn + p.nxc * p.nyc + k
      < p.nxn * p.nyc := by omega
  have h2 : ¬ p.nxn * p.nyc + p.nxc * p.nyn + p.nxc * p.nyc + k
      < p.nxn * p.nyc + p.nxc * p.nyn := by omega
  have h3 : ¬ p.nxn * p.nyc + p.nxc * p.nyn + p.nxc * p.nyc + k
      < p.nxn * p.nyc + p.nxc * p.nyn + p.nxc * p.nyc := by omega
  have h4 : p.nxn * p.nyc + p.nxc * p.nyn + p.nxc * p.nyc + k
      < p.nxn * p.nyc + p.nxc * p.nyn + p.nxc * p.nyc + p.npart := by omega
  have hsub : p.nxn * p.nyc + p.nxc * p.nyn + p.nxc * p.nyc + k
      - (p.nxn * p.nyc + p.nxc * p.nyn + p.nxc * p.nyc) = k := by omega
  simp only [krylov_to_phys, phys_to_krylov, if_neg h1, if_neg h2, if_neg h3,
    if_pos h4, hsub]

theorem roundtrip_v (p : Par) (s : Phys) {k : ℕ} (hk : k < p.npart) :
    (krylov_to_phys p (phys_to_krylov p s)).v k = s.v k := by
  have h1 : ¬ p.nxn * p.nyc + p.nxc * p.nyn + p.nxc * p.nyc + p.npart + k
      < p.nxn * p.nyc := by omega
  have h2 : ¬ p.nxn * p.nyc + p.nxc * p.nyn + p.nxc * p.nyc + p.npart + k
      < p.nxn * p.nyc + p.nxc * p.nyn := by omega
  have h3 : ¬ p.nxn * p.nyc + p.nxc * p.nyn + p.nxc * p.nyc + p.npart + k
      < p.nxn * p.nyc + p.nxc * p.nyn + p.nxc * p.nyc := by omega
  have h4 : ¬ p.nxn * p.nyc + p.nxc * p.nyn + p.nxc * p.nyc + p.npart + k
      < p.nxn * p.nyc + p.nxc * p.nyn + p.nxc * p.nyc + p.npart := by omega
  have h5 : p.nxn * p.nyc + p.nxc * p.nyn + p.nxc * p.nyc + p.npart + k
      < p.nxn * p.nyc + p.nxc * p.nyn + p.nxc * p.nyc + 2 * p.npart := by
    omega
  have hsub : p.nxn * p.nyc + p.nxc * p.nyn + p.nxc * p.nyc + p.npart + k
      - (p.nxn * p.nyc + p.nxc * p.nyn + p.nxc * p.nyc + p.npart) = k := by
    omega
  simp only [krylov_to_phys, phys_to_krylov, if_neg h1, if_neg h2, if_neg h3,
    if_neg h4, if_pos h5, hsub]

theorem roundtrip_w (p : Par) (s : Phys) {k : ℕ} (hk : k < p.npart) :
    (krylov_to_phys p (phys_to_krylov p s)).w k = s.w k := by
  have h1 : ¬ p.nxn * p.nyc + p.nxc * p.nyn + p.nxc * p.nyc + 2 * p.npart + k
      < p.nxn * p.nyc := by omega
  have h2 : ¬ p.nxn * p.nyc + p.nxc * p.nyn + p.nxc * p.nyc + 2 * p.npart + k
      < p.nxn * p.nyc + p.nxc * p.nyn := by omega
  have h3 : ¬ p.nxn * p.nyc + p.nxc * p.nyn + p.nxc * p.nyc + 2 * p.npart + k
      < p.nxn * p.nyc + p.nxc * p.nyn + p.nxc * p.nyc := by omega
  have h4 : ¬ p.nxn * p.nyc + p.nxc * p.nyn + p.nxc * p.nyc + 2 * p.npart + k
      < p.nxn * p.nyc + p.nxc * p.nyn + p.nxc * p.nyc + p.npart := by omega
  have h5 : ¬ p.nxn * p.nyc + p.nxc * p.nyn + p.nxc * p.nyc + 2 * p.npart + k
      < p.nxn * p.nyc + p.nxc * p.nyn + p.nxc * p.nyc + 2 * p.npart := by
    omega
  have h6 : p.nxn * p.nyc + p.nxc * p.nyn + p.nxc * p.nyc + 2 * p.npart + k
      < p.nxn * p.nyc + p.nxc * p.nyn + p.nxc * p.nyc + 3 * p.npart := by
    omega
  have hsub : p.nxn * p.nyc + p.nxc * p.nyn + p.nxc * p.nyc + 2 * p.npart + k
      - (p.nxn * p.nyc + p.nxc * p.nyn + p.nxc * p.nyc + 2 * p.npart)
      = k := by omega
  simp only [krylov_to_phys, phys_to_krylov, if_neg h1, if_neg h2, if_neg h3,
    if_neg h4, if_neg h5, if_pos h6, hsub]

/-- C3: encoding a physical state with phys_to_krylov and decoding it back
with krylov_to_phys returns the three field arrays of shapes (nxn,nyc),
(nxc,nyn), (nxc,nyc) and the three velocity arrays of length npart
unchanged at every in-range index, for every input state. -/
theorem c3_codec_roundtrip (p : Par) (s : Phys) (iE jE iY jY iZ jZ kp : ℕ)
    (hiE : iE < p.nxn) (hjE : jE < p.nyc) (hiY : iY < p.nxc)
    (hjY : jY < p.nyn) (hiZ : iZ < p.nxc) (hjZ : jZ < p.nyc)
    (hk : kp < p.npart) :
    (krylov_to_phys p (phys_to_krylov p s)).Ex iE jE = s.Ex iE jE
    ∧ (krylov_to_phys p (phys_to_krylov p s)).Ey iY jY = s.Ey iY jY
    ∧ (krylov_to_phys p (phys_to_krylov p s)).Ez iZ jZ = s.Ez iZ jZ
    ∧ (krylov_to_phys p (phys_to_krylov p s)).u kp = s.u kp
    ∧ (krylov_to_phys p (phys_to_krylov p s)).v kp = s.v kp
    ∧ (krylov_to_phys p (phys_to_krylov p s)).w kp = s.w kp :=
  ⟨roundtrip_Ex p s hiE hjE, roundtrip_Ey p s hiY hjY,
    roundtrip_Ez p s hiZ hjZ, roundtrip_u p s hk, roundtrip_v p s hk,
    roundtrip_w p s hk⟩

/-- Witness for C3 at a concrete 1x1 grid with one particle. -/
theorem c3_codec_roundtrip_witness :
    ((0 : ℕ) < (Par.mk 1 1 1 4 4 (1 / 20)).nxn
      ∧ (0 : ℕ) < (Par.mk 1 1 1 4 4 (1 / 20)).nyc
      ∧ (0 : ℕ) < (Par.mk 1 1 1 4 4 (1 / 20)).nyn
      ∧ (0 : ℕ) < (Par.mk 1 1 1 4 4 (1 / 20)).npart)
    ∧ (krylov_to_phys (Par.mk 1 1 1 4 4 (1 / 20))
        (phys_to_krylov (Par.mk 1 1 1 4 4 (1 / 20))
          (Phys.mk (fun i j => (i : ℚ) + j) (fun i j => (i : ℚ) + 2 * j)
            (fun i j => (i : ℚ) * j) (fun k => (k : ℚ) + 3)
            (fun k => (k : ℚ) + 5) (fun k => (k : ℚ) + 7)))).u 0
      = (Phys.mk (fun i j => (i : ℚ) + j) (fun i j => (i : ℚ) + 2 * j)
          (fun i j => (i : ℚ) * j) (fun k => (k : ℚ) + 3)
          (fun k => (k : ℚ) + 5) (fun k => (k : ℚ) + 7)).u 0 :=
  ⟨⟨by decide, by decide, by decide, by decide⟩,
    (c3_codec_roundtrip (Par.mk 1 1 1 4 4 (1 / 20)) _ 0 0 0 0 0 0 0
      (by decide) (by decide) (by decide) (by decide) (by decide) (by decide)
      (by decide)).2.2.2.1⟩

/-- C7: every average and directional-derivative variant whose destination
grid carries both domain edges on its periodic axis (C2UD, C2LR, UD2N,
LR2N) produces identical values on the two opposite domain edges of the
destination grid, and the shared edge value is the one computed from the
opposite-boundary source neighbour. -/
theorem c7_periodic_wrap (p : Par) (f : Field2) (ia jb jc ld : ℕ)
    (h1 : ia < p.nxc) (h2 : jb < p.nyc) (h3 : jc < p.nyn)
    (h4 : ld < p.nxn) :
    (avg p f .C2UD ia 0 = avg p f .C2UD ia (p.nyn - 1)
      ∧ avg p f .C2UD ia 0 = (f ia 0 + f ia (p.nyc - 1)) / 2)
    ∧ (dirder p f .C2UD ia 0 = dirder p f .C2UD ia (p.nyn - 1)
      ∧ dirder p f .C2UD ia 0 = (f ia 0 - f ia (p.nyc - 1)) / p.dy)
    ∧ (avg p f .C2LR 0 jb = avg p f .C2LR (p.nxn - 1) jb
      ∧ avg p f .C2LR 0 jb = (f 0 jb + f (p.nxc - 1) jb) / 2)
    ∧ (dirder p f .C2LR 0 jb = dirder p f .C2LR (p.nxn - 1) jb
      ∧ dirder p f .C2LR 0 jb = (f 0 jb - f (p.nxc - 1) jb) / p.dx)
    ∧ (avg p f .UD2N 0 jc = avg p f .UD2N (p.nxn - 1) jc
      ∧ avg p f .UD2N 0 jc = (f 0 jc + f (p.nxc - 1) jc) / 2)
    ∧ (dirder p f .UD2N 0 jc = dirder p f .UD2N (p.nxn - 1) jc
      ∧ dirder p f .UD2N 0 jc = (f 0 jc - f (p.nxc - 1) jc) / p.dx)
    ∧ (avg p f .LR2N ld 0 = avg p f .LR2N ld (p.nyn - 1)
      ∧ avg p f .LR2N ld 0 = (f ld 0 + f ld (p.nyc - 1)) / 2)
    ∧ (dirder p f .LR2N ld 0 = dirder p f .LR2N ld (p.nyn - 1)
      ∧ dirder p f .LR2N ld 0 = (f ld 0 - f ld (p.nyc - 1)) / p.dy) := by
  have eyn : p.nyn - 1 = p.nyc := rfl
  have exn : p.nxn - 1 = p.nxc := rfl
  refine ⟨⟨?_, ?_⟩, ⟨?_, ?_⟩, ⟨?_, ?_⟩, ⟨?_, ?_⟩, ⟨?_, ?_⟩, ⟨?_, ?_⟩,
    ⟨?_, ?_⟩, ⟨?_, ?_⟩⟩
  · rw [eyn]
    rcases Nat.eq_zero_or_pos p.nyc with h0 | h0
    · simp [avg, h0]
    · have hne : p.nyc ≠ 0 := by omega
      simp [avg, h1, hne, Nat.lt_irrefl]
  · simp [avg, h1]
  · rw [eyn]
    rcases Nat.eq_zero_or_pos p.nyc with h0 | h0
    · simp [dirder, h0]
    · have hne : p.nyc ≠ 0 := by omega
      simp [dirder, h1, hne, Nat.lt_irrefl]
  · simp [dirder, h1]
  · rw [exn]
    rcases Nat.eq_zero_or_pos p.nxc with h0 | h0
    · simp [avg, h0]
    · have hne : p.nxc ≠ 0 := by omega
      simp [avg, h2, hne, Nat.lt_irrefl]
  · simp [avg, h2]
  · rw [exn]
    rcases Nat.eq_zero_or_pos p.nxc with h0 | h0
    · simp [dirder, h0]
    · have hne : p.nxc ≠ 0 := by omega
      simp [dirder, h2, hne, Nat.lt_irrefl]
  · simp [dirder, h2]
  · rw [exn]
    rcases Nat.eq_zero_or_pos p.nxc with h0 | h0
    · simp [avg, h0]
    · have hne : p.nxc ≠ 0 := by omega
      simp [avg, h3, hne, Nat.lt_irrefl]
  · simp [avg, h3]
  · rw [exn]
    rcases Nat.eq_zero_or_pos p.nxc with h0 | h0
    · simp [dirder, h0]
    · have hne : p.nxc ≠ 0 := by omega
      simp [dirder, h3, hne, Nat.lt_irrefl]
  · simp [dirder, h3]
  · rw [eyn]
    rcases Nat.eq_zero_or_pos p.nyc with h0 | h0
    · simp [avg, h0]
    · have hne : p.nyc ≠ 0 := by omega
      simp [avg, h4, hne, Nat.lt_irrefl]
  · simp [avg, h4]
  · rw [eyn]
    rcases Nat.eq_zero_or_pos p.nyc with h0 | h0
    · simp [dirder, h0]
    · have hne : p.nyc ≠ 0 := by omega
      simp [dirder, h4, hne, Nat.lt_irrefl]
  · simp [dirder, h4]

/-- Witness for C7 at a concrete 2x2 grid and a concrete field. -/
theorem c7_periodic_wrap_witness :
    ((0 : ℕ) < (Par.mk 2 2 0 4 4 (1 / 20)).nxc
      ∧ (0 : ℕ) < (Par.mk 2 2 0 4 4 (1 / 20)).nyc)
    ∧ avg (Par.mk 2 2 0 4 4 (1 / 20)) (fun i j => (i : ℚ) + 3 * j) .C2UD 0 0
      = avg (Par.mk 2 2 0 4 4 (1 / 20)) (fun i j => (i : ℚ) + 3 * j) .C2UD 0
        ((Par.mk 2 2 0 4 4 (1 / 20)).nyn - 1) :=
  ⟨⟨by decide, by decide⟩,
    (c7_periodic_wrap (Par.mk 2 2 0 4 4 (1 / 20))
      (fun i j => (i : ℚ) + 3 * j) 0 0 0 0 (by decide) (by decide)
      (by decide) (by decide)).1.1⟩

/-- Grid-type tag of the bilinear gather (the gridtype strings LR, UD, C,
N of grid_to_particle). -/
inductive GridT
  | LR | UD | C | N
  deriving DecidableEq

/-- Half-cell x offset of a grid type (grid_to_particle, lines 342-348 of
iPiC_2D3V_cov_yee.py). -/
def gp_fx (p : Par) : GridT → ℚ
  | .UD => p.dx / 2
  | .C => p.dx / 2
  | _ => 0

/-- Half-cell y offset of a grid type. -/
def gp_fy (p : Par) : GridT → ℚ
  | .LR => p.dy / 2
  | .C => p.dy / 2
  | _ => 0

/-- Normalised x coordinate xa = (xk - fx)/dx of the gather. -/
def gp_xa (p : Par) (gt : GridT) (xk : ℚ) : ℚ := (xk - gp_fx p gt) / p.dx

/-- Normalised y coordinate ya = (yk - fy)/dy of the gather. -/
def gp_ya (p : Par) (gt : GridT) (yk : ℚ) : ℚ := (yk - gp_fy p gt) / p.dy

/-- Lower x index before the periodic wrap, i1 = floor(xa). -/
def gp_i1raw (p : Par) (gt : GridT) (xk : ℚ) : ℤ := ⌊gp_xa p gt xk⌋

/-- Lower y index before the periodic wrap, j1 = floor(ya). -/
def gp_j1raw (p : Par) (gt : GridT) (yk : ℚ) : ℤ := ⌊gp_ya p gt yk⌋

/-- Interpolation weight wx2 = xa - i1 (computed before wrapping). -/
def gp_wx2 (p : Par) (gt : GridT) (xk : ℚ) : ℚ :=
  gp_xa p gt xk - (gp_i1raw p gt xk : ℚ)

/-- Interpolation weight wx1 = 1 - wx2. -/
def gp_wx1 (p : Par) (gt : GridT) (xk : ℚ) : ℚ := 1 - gp_wx2 p gt xk

/-- Interpolation weight wy2 = ya - j1 (computed before wrapping). -/
def gp_wy2 (p : Par) (gt : GridT) (yk : ℚ) : ℚ :=
  gp_ya p gt yk - (gp_j1raw p gt yk : ℚ)

/-- Interpolation weight wy1 = 1 - wy2. -/
def gp_wy1 (p : Par) (gt : GridT) (yk : ℚ) : ℚ := 1 - gp_wy2 p gt yk

/-- Lower x read index after the per-axis wrap of grid_to_particle
(lines 363-369 of iPiC_2D3V_cov_yee.py): the x axis is wrapped modulo nxc
for the UD and C grids only. -/
def gp_i1 (p : Par) (gt : GridT) (xk : ℚ) : ℤ :=
  match gt with
  | .UD => (gp_i1raw p gt xk).emod p.nxc
  | .C => (gp_i1raw p gt xk).emod p.nxc
  | _ => gp_i1raw p gt xk

/-- Upper x read index after the per-axis wrap. -/
def gp_i2 (p : Par) (gt : GridT) (xk : ℚ) : ℤ :=
  match gt with
  | .UD => (gp_i1raw p gt xk + 1).emod p.nxc
  | .C => (gp_i1raw p gt xk + 1).emod p.nxc
  | _ => gp_i1raw p gt xk + 1

/-- Lower y read index after the per-axis wrap: the y axis is wrapped
modulo nyc for the LR and C grids only. -/
def gp_j1 (p : Par) (gt : GridT) (yk : ℚ) : ℤ :=
  match gt with
  | .LR => (gp_j1raw p gt yk).emod p.nyc
  | .C => (gp_j1raw p gt yk).emod p.nyc
  | _ => gp_j1raw p gt yk

/-- Upper y read index after the per-axis wrap. -/
def gp_j2 (p : Par) (gt : GridT) (yk : ℚ) : ℤ :=
  match gt with
  | .LR => (gp_j1raw p gt yk + 1).emod p.nyc
  | .C => (gp_j1raw p gt yk + 1).emod p.nyc
  | _ => gp_j1raw p gt yk + 1

/-- Bilinear gather of a grid quantity to one particle position, translated
from grid_to_particle of iPiC_2D3V_cov_yee.py (lines 335-373; identical in
the staggered file, lines 1117-1155).  The gather safety theorem shows the
read indices are nonnegative and in bounds on the particle domain, so the
toNat coercion used for the function read never truncates there. -/
def grid_to_particle (p : Par) (xk yk : ℚ) (f : Field2) (gt : GridT) : ℚ :=
  gp_wx1 p gt xk * gp_wy1 p gt yk
      * f (gp_i1 p gt xk).toNat (gp_j1 p gt yk).toNat
    + gp_wx2 p gt xk * gp_wy1 p gt yk
      * f (gp_i2 p gt xk).toNat (gp_j1 p gt yk).toNat
    + gp_wx1 p gt xk * gp_wy2 p gt yk
      * f (gp_i1 p gt xk).toNat (gp_j2 p gt yk).toNat
    + gp_wx2 p gt xk * gp_wy2 p gt yk
      * f (gp_i2 p gt xk).toNat (gp_j2 p gt yk).toNat

/-- Number of rows of the field array a grid type indexes. -/
def gp_rows (p : Par) : GridT → ℕ
  | .LR => p.nxn
  | .UD => p.nxc
  | .C => p.nxc
  | .N => p.nxn

/-- Number of columns of the field array a grid type indexes. -/
def gp_cols (p : Par) : GridT → ℕ
  | .LR => p.nyc
  | .UD => p.nyn
  | .C => p.nyc
  | .N => p.nyn

theorem floor_div_bounds {L : ℚ} {n : ℕ} {x : ℚ} (hL : 0 < L) (hn : 0 < n)
    (hx0 : 0 ≤ x) (hxL : x < L) :
    0 ≤ ⌊x / (L / n)⌋ ∧ ⌊x / (L / n)⌋ < (n : ℤ) := by
  have hnq : (0 : ℚ) < n := by exact_mod_cast hn
  have hd : 0 < L / (n : ℚ) := div_pos hL hnq
  constructor
  · exact Int.floor_nonneg.mpr (div_nonneg hx0 hd.le)
  · rw [Int.floor_lt]
    push_cast
    rw [div_lt_iff₀ hd]
    calc x < L := hxL
    _ = (n : ℚ) * (L / n) := by field_simp

theorem emod_bounds (a : ℤ) {n : ℕ} (hn : 0 < n) :
    0 ≤ a.emod n ∧ a.emod n < (n : ℤ) := by
  have h0 : ((n : ℤ)) ≠ 0 := by exact_mod_cast hn.ne'
  exact ⟨Int.emod_nonneg a h0,
    Int.emod_lt_of_pos a (by exact_mod_cast hn)⟩

/-- C10: for every query position in the periodic domain and every grid
type, the bilinear gather only reads the field array at nonnegative
in-bounds indices (after the per-axis modulo wrap of the source), and its
four interpolation weights each lie in the unit interval and sum to 1. -/
theorem c10_gather_safety (p : Par) (gt : GridT) (x y : ℚ) (hx0 : 0 ≤ x)
    (hxL : x < p.Lx) (hy0 : 0 ≤ y) (hyL : y < p.Ly) (hnx : 0 < p.nxc)
    (hny : 0 < p.nyc) (hLx : 0 < p.Lx) (hLy : 0 < p.Ly) :
    (0 ≤ gp_i1 p gt x ∧ gp_i1 p gt x < (gp_rows p gt : ℤ)
      ∧ 0 ≤ gp_i2 p gt x ∧ gp_i2 p gt x < (gp_rows p gt : ℤ)
      ∧ 0 ≤ gp_j1 p gt y ∧ gp_j1 p gt y < (gp_cols p gt : ℤ)
      ∧ 0 ≤ gp_j2 p gt y ∧ gp_j2 p gt y < (gp_cols p gt : ℤ))
    ∧ (0 ≤ gp_wx1 p gt x * gp_wy1 p gt y ∧ gp_wx1 p gt x * gp_wy1 p gt y ≤ 1
      ∧ 0 ≤ gp_wx2 p gt x * gp_wy1 p gt y ∧ gp_wx2 p gt x * gp_wy1 p gt y ≤ 1
      ∧ 0 ≤ gp_wx1 p gt x * gp_wy2 p gt y ∧ gp_wx1 p gt x * gp_wy2 p gt y ≤ 1
      ∧ 0 ≤ gp_wx2 p gt x * gp_wy2 p gt y
      ∧ gp_wx2 p gt x * gp_wy2 p gt y ≤ 1)
    ∧ gp_wx1 p gt x * gp_wy1 p gt y + gp_wx2 p gt x * gp_wy1 p gt y
      + gp_wx1 p gt x * gp_wy2 p gt y + gp_wx2 p gt x * gp_wy2 p gt y
      = 1 := by
  have hwx2 : gp_wx2 p gt x = Int.fract (gp_xa p gt x) := rfl
  have hwy2 : gp_wy2 p gt y = Int.fract (gp_ya p gt y) := rfl
  have hx2a : 0 ≤ gp_wx2 p gt x := by rw [hwx2]; exact Int.fract_nonneg _
  have hx2b : gp_wx2 p gt x ≤ 1 := by
    rw [hwx2]; exact (Int.fract_lt_one _).le
  have hy2a : 0 ≤ gp_wy2 p gt y := by rw [hwy2]; exact Int.fract_nonneg _
  have hy2b : gp_wy2 p gt y ≤ 1 := by
    rw [hwy2]; exact (Int.fract_lt_one _).le
  have hx1a : 0 ≤ gp_wx1 p gt x := by unfold gp_wx1; linarith
  have hx1b : gp_wx1 p gt x ≤ 1 := by unfold gp_wx1; linarith
  have hy1a : 0 ≤ gp_wy1 p gt y := by unfold gp_wy1; linarith
  have hy1b : gp_wy1 p gt y ≤ 1 := by unfold gp_wy1; linarith
  refine ⟨?_, ⟨mul_nonneg hx1a hy1a, mul_le_one₀ hx1b hy1a hy1b,
    mul_nonneg hx2a hy1a, mul_le_one₀ hx2b hy1a hy1b,
    mul_nonneg hx1a hy2a, mul_le_one₀ hx1b hy2a hy2b,
    mul_nonneg hx2a hy2a, mul_le_one₀ hx2b hy2a hy2b⟩, ?_⟩
  swap
  · unfold gp_wx1 gp_wy1; ring
  have hxfree : ∀ g : GridT, gp_fx p g = 0 → 0 ≤ gp_i1raw p g x
      ∧ gp_i1raw p g x < (p.nxc : ℤ) := by
    intro g hg
    have hxa : gp_xa p g x = x / (p.Lx / p.nxc) := by
      simp [gp_xa, hg, Par.dx]
    unfold gp_i1raw
    rw [hxa]
    exact floor_div_bounds hLx hnx hx0 hxL
  have hyfree : ∀ g : GridT, gp_fy p g = 0 → 0 ≤ gp_j1raw p g y
      ∧ gp_j1raw p g y < (p.nyc : ℤ) := by
    intro g hg
    have hya : gp_ya p g y = y / (p.Ly / p.nyc) := by
      simp [gp_ya, hg, Par.dy]
    unfold gp_j1raw
    rw [hya]
    exact floor_div_bounds hLy hny hy0 hyL
  cases gt
  case LR =>
    have hi := hxfree .LR rfl
    have hj1 := emod_bounds (gp_j1raw p .LR y) hny
    have hj2 := emod_bounds (gp_j1raw p .LR y + 1) hny
    refine ⟨?_, ?_, ?_, ?_, ?_, ?_, ?_, ?_⟩ <;>
      simp only [gp_i1, gp_i2, gp_j1, gp_j2, gp_rows, gp_cols, Par.nxn] <;>
      push_cast <;> omega
  case UD =>
    have hi1 := emod_bounds (gp_i1raw p .UD x) hnx
    have hi2 := emod_bounds (gp_i1raw p .UD x + 1) hnx
    have hj := hyfree .UD rfl
    refine ⟨?_, ?_, ?_, ?_, ?_, ?_, ?_, ?_⟩ <;>
      simp only [gp_i1, gp_i2, gp_j1, gp_j2, gp_rows, gp_cols, Par.nyn] <;>
      push_cast <;> omega
  case C =>
    have hi1 := emod_bounds (gp_i1raw p .C x) hnx
    have hi2 := emod_bounds (gp_i1raw p .C x + 1) hnx
    have hj1 := emod_bounds (gp_j1raw p .C y) hny
    have hj2 := emod_bounds (gp_j1raw p .C y + 1) hny
    refine ⟨?_, ?_, ?_, ?_, ?_, ?_, ?_, ?_⟩ <;>
      simp only [gp_i1, gp_i2, gp_j1, gp_j2, gp_rows, gp_cols] <;> omega
  case N =>
    have hi := hxfree .N rfl
    have hj := hyfree .N rfl
    refine ⟨?_, ?_, ?_, ?_, ?_, ?_, ?_, ?_⟩ <;>
      simp only [gp_i1, gp_i2, gp_j1, gp_j2, gp_rows, gp_cols, Par.nxn,
        Par.nyn] <;>
      push_cast <;> omega

/-- Witness for C10 at a concrete position on a concrete 2x2 grid. -/
theorem c10_gather_safety_witness :
    ((0 : ℚ) ≤ 1 ∧ (1 : ℚ) < (Par.mk 2 2 0 4 4 (1 / 20)).Lx
      ∧ (0 : ℕ) < (Par.mk 2 2 0 4 4 (1 / 20)).nxc)
    ∧ gp_wx1 (Par.mk 2 2 0 4 4 (1 / 20)) .C 1
        * gp_wy1 (Par.mk 2 2 0 4 4 (1 / 20)) .C 1
      + gp_wx2 (Par.mk 2 2 0 4 4 (1 / 20)) .C 1
        * gp_wy1 (Par.mk 2 2 0 4 4 (1 / 20)) .C 1
      + gp_wx1 (Par.mk 2 2 0 4 4 (1 / 20)) .C 1
        * gp_wy2 (Par.mk 2 2 0 4 4 (1 / 20)) .C 1
      + gp_wx2 (Par.mk 2 2 0 4 4 (1 / 20)) .C 1
        * gp_wy2 (Par.mk 2 2 0 4 4 (1 / 20)) .C 1 = 1 :=
  ⟨⟨by decide, by decide, by decide⟩,
    (c10_gather_safety (Par.mk 2 2 0 4 4 (1 / 20)) .C 1 1 (by decide)
      (by decide) (by decide) (by decide) (by decide) (by decide)
      (by decide) (by decide)).2.2⟩

/-- A particle as consumed by the charge deposition: position and charge. -/
structure Part3 where
  x : ℚ
  y : ℚ
  q : ℚ
  deriving DecidableEq

/-- Normalised x coordinate of the charge deposit, xa = (x - dx/2)/dx
(particle_to_grid_rho, iPiC_2D3V_cov_yee_staggerd_timestep.py line 1165). -/
def rho_xa (p : Par) (x : ℚ) : ℚ := (x - p.dx / 2) / p.dx

/-- Normalised y coordinate of the charge deposit. -/
def rho_ya (p : Par) (y : ℚ) : ℚ := (y - p.dy / 2) / p.dy

/-- Lower x deposit index i1 = floor(xa) mod nxc. -/
def rho_i1 (p : Par) (x : ℚ) : ℤ := (⌊rho_xa p x⌋).emod p.nxc

/-- Upper x deposit index i2 = (i1 + 1) mod nxc. -/
def rho_i2 (p : Par) (x : ℚ) : ℤ := (⌊rho_xa p x⌋ + 1).emod p.nxc

/-- Lower y deposit index j1 = floor(ya) mod nyc. -/
def rho_j1 (p : Par) (y : ℚ) : ℤ := (⌊rho_ya p y⌋).emod p.nyc

/-- Upper y deposit index j2 = (j1 + 1) mod nyc. -/
def rho_j2 (p : Par) (y : ℚ) : ℤ := (⌊rho_ya p y⌋ + 1).emod p.nyc

/-- Deposit weight wx2 = xa - floor(xa) (computed before the wrap). -/
def rho_wx2 (p : Par) (x : ℚ) : ℚ := rho_xa p x - (⌊rho_xa p x⌋ : ℚ)

/-- Deposit weight wx1 = 1 - wx2. -/
def rho_wx1 (p : Par) (x : ℚ) : ℚ := 1 - rho_wx2 p x

/-- Deposit weight wy2 = ya - floor(ya). -/
def rho_wy2 (p : Par) (y : ℚ) : ℚ := rho_ya p y - (⌊rho_ya p y⌋ : ℚ)

/-- Deposit weight wy1 = 1 - wy2. -/
def rho_wy1 (p : Par) (y : ℚ) : ℚ := 1 - rho_wy2 p y

/-- Additive increment one particle makes to the charge-density array: the
four += statements of particle_to_grid_rho (lines 1178-1181 of the
staggered file) written as indicator terms, so coinciding wrapped indices
accumulate exactly as in the source. -/
def rho_contrib (p : Par) (pt : Part3) : Field2 := fun i j =>
  (if (i : ℤ) = rho_i1 p pt.x ∧ (j : ℤ) = rho_j1 p pt.y then
      rho_wx1 p pt.x * rho_wy1 p pt.y * pt.q else 0)
    + (if (i : ℤ) = rho_i2 p pt.x ∧ (j : ℤ) = rho_j1 p pt.y then
        rho_wx2 p pt.x * rho_wy1 p pt.y * pt.q else 0)
    + (if (i : ℤ) = rho_i1 p pt.x ∧ (j : ℤ) = rho_j2 p pt.y then
        rho_wx1 p pt.x * rho_wy2 p pt.y * pt.q else 0)
    + (if (i : ℤ) = rho_i2 p pt.x ∧ (j : ℤ) = rho_j2 p pt.y then
        rho_wx2 p pt.x * rho_wy2 p pt.y * pt.q else 0)

/-- Sequential particle loop of particle_to_grid_rho as a fold over the
particle list, starting from the zeros array. -/
def rho_deposit (p : Par) (ps : List Part3) : Field2 :=
  ps.foldl (fun r pt => fun i j => r i j + rho_contrib p pt i j)
    (fun _ _ => 0)

/-- Charge deposition, translated from particle_to_grid_rho of
iPiC_2D3V_cov_yee_staggerd_timestep.py (lines 1157-1186): the per-particle
loop runs over indices 0..npart-1 in order, then the background ion array
is added once (the electron_and_ion flag is True in the source). -/
def particle_to_grid_rho (p : Par) (xk yk qk : Vec) (rho_ion : Field2) :
    Field2 := fun i j =>
  rho_deposit p ((List.range p.npart).map fun k => Part3.mk (xk k) (yk k) (qk k)) i j
    + rho_ion i j

/-- Total deposited charge: sum of a cell-centred array over all grid
cells. -/
def cellSum (p : Par) (f : Field2) : ℚ :=
  ∑ i ∈ Finset.range p.nxc, ∑ j ∈ Finset.range p.nyc, f i j

theorem cellSum_add (p : Par) (f g : Field2) :
    cellSum p (fun i j => f i j + g i j) = cellSum p f + cellSum p g := by
  unfold cellSum
  simp only [Finset.sum_add_distrib]

theorem sum_indicator (nx ny : ℕ) {a b : ℤ} (ha0 : 0 ≤ a)
    (ha : a < (nx : ℤ)) (hb0 : 0 ≤ b) (hb : b < (ny : ℤ)) (c : ℚ) :
    ∑ i ∈ Finset.range nx, ∑ j ∈ Finset.range ny,
      (if (i : ℤ) = a ∧ (j : ℤ) = b then c else 0) = c := by
  have hA : a.toNat < nx := by omega
  have hB : b.toNat < ny := by omega
  have key : ∀ i j : ℕ, ((i : ℤ) = a ∧ (j : ℤ) = b)
      ↔ (i = a.toNat ∧ j = b.toNat) := by intro i j; omega
  have hinner : ∀ i ∈ Finset.range nx,
      (∑ j ∈ Finset.range ny, (if (i : ℤ) = a ∧ (j : ℤ) = b then c else 0))
        = if i = a.toNat then c else 0 := by
    intro i _
    by_cases hia : i = a.toNat
    · simp only [key, hia, true_and]
      rw [Finset.sum_ite_eq' (Finset.range ny) b.toNat (fun _ => c)]
      simp [Finset.mem_range, hB]
    · simp only [key]
      have : ∀ j : ℕ, (i = a.toNat ∧ j = b.toNat) = False := by
        intro j; simp [hia]
      simp [this, hia]
  rw [Finset.sum_congr rfl hinner,
    Finset.sum_ite_eq' (Finset.range nx) a.toNat (fun _ => c)]
  simp [Finset.mem_range, hA]

theorem cellSum_rho_contrib (p : Par) (pt : Part3) (hx : 0 < p.nxc)
    (hy : 0 < p.nyc) : cellSum p (rho_contrib p pt) = pt.q := by
  have hi1 : 0 ≤ rho_i1 p pt.x ∧ rho_i1 p pt.x < (p.nxc : ℤ) :=
    emod_bounds (⌊rho_xa p pt.x⌋) hx
  have hi2 : 0 ≤ rho_i2 p pt.x ∧ rho_i2 p pt.x < (p.nxc : ℤ) :=
    emod_bounds (⌊rho_xa p pt.x⌋ + 1) hx
  have hj1 : 0 ≤ rho_j1 p pt.y ∧ rho_j1 p pt.y < (p.nyc : ℤ) :=
    emod_bounds (⌊rho_ya p pt.y⌋) hy
  have hj2 : 0 ≤ rho_j2 p pt.y ∧ rho_j2 p pt.y < (p.nyc : ℤ) :=
    emod_bounds (⌊rho_ya p pt.y⌋ + 1) hy
  unfold cellSum rho_contrib
  simp only [Finset.sum_add_distrib]
  rw [sum_indicator p.nxc p.nyc hi1.1 hi1.2 hj1.1 hj1.2,
    sum_indicator p.nxc p.nyc hi2.1 hi2.2 hj1.1 hj1.2,
    sum_indicator p.nxc p.nyc hi1.1 hi1.2 hj2.1 hj2.2,
    sum_indicator p.nxc p.nyc hi2.1 hi2.2 hj2.1 hj2.2]
  unfold rho_wx1 rho_wy1
  ring

theorem rho_deposit_sum (p : Par) (hx : 0 < p.nxc) (hy : 0 < p.nyc)
    (ps : List Part3) : ∀ init : Field2,
    cellSum p (ps.foldl (fun r pt => fun i j => r i j + rho_contrib p pt i j)
        init)
      = cellSum p init + (ps.map Part3.q).sum := by
  induction ps with
  | nil => intro init; simp
  | cons pt ps ih =>
    intro init
    rw [List.foldl_cons, ih]
    rw [cellSum_add p init (rho_contrib p pt),
      cellSum_rho_contrib p pt hx hy]
    simp only [List.map_cons, List.sum_cons]
    ring

theorem rho_deposit_perm (p : Par) {ps qs : List Part3} (h : ps.Perm qs) :
    rho_deposit p ps = rho_deposit p qs := by
  unfold rho_deposit
  exact h.foldl_eq'
    (fun a _ b _ z => by funext i j; dsimp only; ring) _

/-- C8: for every particle ensemble, the sum over all grid cells of the
charge density deposited by the particle loop of particle_to_grid_rho
(before the background ion contribution) equals the sum of the particle
charges, and the deposited array is unchanged under any permutation of the
particle deposition order (the additive accumulation taken exactly). -/
theorem c8_charge_conservation (p : Par) (ps qs : List Part3)
    (hx : 0 < p.nxc) (hy : 0 < p.nyc) (hperm : ps.Perm qs) :
    rho_deposit p ps = rho_deposit p qs
    ∧ cellSum p (rho_deposit p ps) = (ps.map Part3.q).sum := by
  refine ⟨rho_deposit_perm p hperm, ?_⟩
  unfold rho_deposit
  rw [rho_deposit_sum p hx hy ps (fun _ _ => 0)]
  simp [cellSum]

/-- Witness for C8 with two particles deposited in both orders on a 2x2
grid. -/
theorem c8_charge_conservation_witness :
    ((0 : ℕ) < (Par.mk 2 2 2 4 4 (1 / 20)).nxc
      ∧ (0 : ℕ) < (Par.mk 2 2 2 4 4 (1 / 20)).nyc
      ∧ List.Perm [Part3.mk 1 1 3, Part3.mk 3 2 5]
        [Part3.mk 3 2 5, Part3.mk 1 1 3])
    ∧ cellSum (Par.mk 2 2 2 4 4 (1 / 20))
        (rho_deposit (Par.mk 2 2 2 4 4 (1 / 20))
          [Part3.mk 1 1 3, Part3.mk 3 2 5])
      = ([Part3.mk 1 1 3, Part3.mk 3 2 5].map Part3.q).sum :=
  ⟨⟨by decide, by decide, by decide⟩,
    (c8_charge_conservation (Par.mk 2 2 2 4 4 (1 / 20))
      [Part3.mk 1 1 3, Part3.mk 3 2 5] [Part3.mk 3 2 5, Part3.mk 1 1 3]
      (by decide) (by decide) (by decide)).2⟩

/-- A particle as consumed by the current deposition: position, velocity
components and charge. -/
structure Part6 where
  x : ℚ
  y : ℚ
  u : ℚ
  v : ℚ
  w : ℚ
  q : ℚ
  deriving DecidableEq

/-- LR current deposit, lower x index i1 = floor(x/dx), not wrapped
(particle_to_grid_J of iPiC_2D3V_cov_yee.py, lines 385-398). -/
def jlr_i1 (p : Par) (x : ℚ) : ℤ := ⌊x / p.dx⌋

/-- LR current deposit, upper x index: i2 = i1 + 1 folded back to 0 when it
equals nxn - 1 (the last periodic LR row). -/
def jlr_i2 (p : Par) (x : ℚ) : ℤ :=
  if ⌊x / p.dx⌋ + 1 = (p.nxn : ℤ) - 1 then 0 else ⌊x / p.dx⌋ + 1

/-- LR current deposit, lower y index, wrapped modulo nyc. -/
def jlr_j1 (p : Par) (y : ℚ) : ℤ := (⌊(y - p.dy / 2) / p.dy⌋).emod p.nyc

/-- LR current deposit, upper y index, wrapped modulo nyc. -/
def jlr_j2 (p : Par) (y : ℚ) : ℤ :=
  (⌊(y - p.dy / 2) / p.dy⌋ + 1).emod p.nyc

/-- LR current deposit weight wx2. -/
def jlr_wx2 (p : Par) (x : ℚ) : ℚ := x / p.dx - (⌊x / p.dx⌋ : ℚ)

/-- LR current deposit weight wx1. -/
def jlr_wx1 (p : Par) (x : ℚ) : ℚ := 1 - jlr_wx2 p x

/-- LR current deposit weight wy2. -/
def jlr_wy2 (p : Par) (y : ℚ) : ℚ :=
  (y - p.dy / 2) / p.dy - (⌊(y - p.dy / 2) / p.dy⌋ : ℚ)

/-- LR current deposit weight wy1. -/
def jlr_wy1 (p : Par) (y : ℚ) : ℚ := 1 - jlr_wy2 p y

/-- UD current deposit, lower x index, wrapped modulo nxc
(particle_to_grid_J, lines 405-418). -/
def jud_i1 (p : Par) (x : ℚ) : ℤ := (⌊(x - p.dx / 2) / p.dx⌋).emod p.nxc

/-- UD current deposit, upper x index, wrapped modulo nxc. -/
def jud_i2 (p : Par) (x : ℚ) : ℤ :=
  (⌊(x - p.dx / 2) / p.dx⌋ + 1).emod p.nxc

/-- UD current deposit, lower y index j1 = floor(y/dy), not wrapped. -/
def jud_j1 (p : Par) (y : ℚ) : ℤ := ⌊y / p.dy⌋

/-- UD current deposit, upper y index: j2 = j1 + 1 folded back to 0 when it
equals nyn - 1 (the last periodic UD column). -/
def jud_j2 (p : Par) (y : ℚ) : ℤ :=
  if ⌊y / p.dy⌋ + 1 = (p.nyn : ℤ) - 1 then 0 else ⌊y / p.dy⌋ + 1

/-- UD current deposit weight wx2. -/
def jud_wx2 (p : Par) (x : ℚ) : ℚ :=
  (x - p.dx / 2) / p.dx - (⌊(x - p.dx / 2) / p.dx⌋ : ℚ)

/-- UD current deposit weight wx1. -/
def jud_wx1 (p : Par) (x : ℚ) : ℚ := 1 - jud_wx2 p x

/-- UD current deposit weight wy2. -/
def jud_wy2 (p : Par) (y : ℚ) : ℚ := y / p.dy - (⌊y / p.dy⌋ : ℚ)

/-- UD current deposit weight wy1. -/
def jud_wy1 (p : Par) (y : ℚ) : ℚ := 1 - jud_wy2 p y

/-- C current deposit, lower x index, wrapped modulo nxc
(particle_to_grid_J, lines 425-437). -/
def jc_i1 (p : Par) (x : ℚ) : ℤ := (⌊(x - p.dx / 2) / p.dx⌋).emod p.nxc

/-- C current deposit, upper x index, wrapped modulo nxc. -/
def jc_i2 (p : Par) (x : ℚ) : ℤ :=
  (⌊(x - p.dx / 2) / p.dx⌋ + 1).emod p.nxc

/-- C current deposit, lower y index, wrapped modulo nyc. -/
def jc_j1 (p : Par) (y : ℚ) : ℤ := (⌊(y - p.dy / 2) / p.dy⌋).emod p.nyc

/-- C current deposit, upper y index, wrapped modulo nyc. -/
def jc_j2 (p : Par) (y : ℚ) : ℤ :=
  (⌊(y - p.dy / 2) / p.dy⌋ + 1).emod p.nyc

/-- C current deposit weight wx2. -/
def jc_wx2 (p : Par) (x : ℚ) : ℚ :=
  (x - p.dx / 2) / p.dx - (⌊(x - p.dx / 2) / p.dx⌋ : ℚ)

/-- C current deposit weight wx1. -/
def jc_wx1 (p : Par) (x : ℚ) : ℚ := 1 - jc_wx2 p x

/-- C current deposit weight wy2. -/
def jc_wy2 (p : Par) (y : ℚ) : ℚ :=
  (y - p.dy / 2) / p.dy - (⌊(y - p.dy / 2) / p.dy⌋ : ℚ)

/-- C current deposit weight wy1. -/
def jc_wy1 (p : Par) (y : ℚ) : ℚ := 1 - jc_wy2 p y

/-- Additive increment of one particle to Jx (the four += statements at
lines 400-403 of iPiC_2D3V_cov_yee.py). -/
def jx_contrib (p : Par) (pt : Part6) : Field2 := fun i j =>
  (if (i : ℤ) = jlr_i1 p pt.x ∧ (j : ℤ) = jlr_j1 p pt.y then
      jlr_wx1 p pt.x * jlr_wy1 p pt.y * pt.q * pt.u / p.dx / p.dy else 0)
    + (if (i : ℤ) = jlr_i2 p pt.x ∧ (j : ℤ) = jlr_j1 p pt.y then
        jlr_wx2 p pt.x * jlr_wy1 p pt.y * pt.q * pt.u / p.dx / p.dy else 0)
    + (if (i : ℤ) = jlr_i1 p pt.x ∧ (j : ℤ) = jlr_j2 p pt.y then
        jlr_wx1 p pt.x * jlr_wy2 p pt.y * pt.q * pt.u / p.dx / p.dy else 0)
    + (if (i : ℤ) = jlr_i2 p pt.x ∧ (j : ℤ) = jlr_j2 p pt.y then
        jlr_wx2 p pt.x * jlr_wy2 p pt.y * pt.q * pt.u / p.dx / p.dy else 0)

/-- Additive increment of one particle to Jy (lines 420-423). -/
def jy_contrib (p : Par) (pt : Part6) : Field2 := fun i j =>
  (if (i : ℤ) = jud_i1 p pt.x ∧ (j : ℤ) = jud_j1 p pt.y then
      jud_wx1 p pt.x * jud_wy1 p pt.y * pt.q * pt.v / p.dx / p.dy else 0)
    + (if (i : ℤ) = jud_i2 p pt.x ∧ (j : ℤ) = jud_j1 p pt.y then
        jud_wx2 p pt.x * jud_wy1 p pt.y * pt.q * pt.v / p.dx / p.dy else 0)
    + (if (i : ℤ) = jud_i1 p pt.x ∧ (j : ℤ) = jud_j2 p pt.y then
        jud_wx1 p pt.x * jud_wy2 p pt.y * pt.q * pt.v / p.dx / p.dy else 0)
    + (if (i : ℤ) = jud_i2 p pt.x ∧ (j : ℤ) = jud_j2 p pt.y then
        jud_wx2 p pt.x * jud_wy2 p pt.y * pt.q * pt.v / p.dx / p.dy else 0)

/-- Additive increment of one particle to Jz (lines 439-442). -/
def jz_contrib (p : Par) (pt : Part6) : Field2 := fun i j =>
  (if (i : ℤ) = jc_i1 p pt.x ∧ (j : ℤ) = jc_j1 p pt.y then
      jc_wx1 p pt.x * jc_wy1 p pt.y * pt.q * pt.w / p.dx / p.dy else 0)
    + (if (i : ℤ) = jc_i2 p pt.x ∧ (j : ℤ) = jc_j1 p pt.y then
        jc_wx2 p pt.x * jc_wy1 p pt.y * pt.q * pt.w / p.dx / p.dy else 0)
    + (if (i : ℤ) = jc_i1 p pt.x ∧ (j : ℤ) = jc_j2 p pt.y then
        jc_wx1 p pt.x * jc_wy2 p pt.y * pt.q * pt.w / p.dx / p.dy else 0)
    + (if (i : ℤ) = jc_i2 p pt.x ∧ (j : ℤ) = jc_j2 p pt.y then
        jc_wx2 p pt.x * jc_wy2 p pt.y * pt.q * pt.w / p.dx / p.dy else 0)

/-- Current deposition, translated from particle_to_grid_J of
iPiC_2D3V_cov_yee.py (lines 375-447; identical in the staggered file,
lines 1188-1261): the single particle loop accumulates the three current
arrays, then the periodic copies Jx[nxn-1,:] = Jx[0,:] and
Jy[:,nyn-1] = Jy[:,0] are applied. -/
def particle_to_grid_J (p : Par) (ps : List Part6) :
    Field2 × Field2 × Field2 :=
  let acc := ps.foldl (fun (r : Field2 × Field2 × Field2) pt =>
      (fun i j => r.1 i j + jx_contrib p pt i j,
        fun i j => r.2.1 i j + jy_contrib p pt i j,
        fun i j => r.2.2 i j + jz_contrib p pt i j))
    (fun _ _ => 0, fun _ _ => 0, fun _ _ => 0)
  (fun i j => if i = p.nxn - 1 then acc.1 0 j else acc.1 i j,
    fun i j => if j = p.nyn - 1 then acc.2.1 i 0 else acc.2.1 i j,
    acc.2.2)

/-- C9: for every particle position in the periodic domain, the current
deposition indices fold the upper index back to 0 exactly when it reaches
the last periodic index (i2 = nxn-1 on the LR grid, j2 = nyn-1 on the UD
grid, and the modulo wrap on the C grid), and all four accumulation
indices of each of the three deposits are nonnegative and strictly inside
the array bounds. -/
theorem c9_deposit_fold_bounds (p : Par) (x y : ℚ) (hx0 : 0 ≤ x)
    (hxL : x < p.Lx) (hy0 : 0 ≤ y) (hyL : y < p.Ly) (hnx : 0 < p.nxc)
    (hny : 0 < p.nyc) (hLx : 0 < p.Lx) (hLy : 0 < p.Ly) :
    (jlr_i2 p x
      = if jlr_i1 p x + 1 = (p.nxn : ℤ) - 1 then 0 else jlr_i1 p x + 1)
    ∧ (jud_j2 p y
      = if jud_j1 p y + 1 = (p.nyn : ℤ) - 1 then 0 else jud_j1 p y + 1)
    ∧ (0 ≤ jlr_i1 p x ∧ jlr_i1 p x < (p.nxc : ℤ)
      ∧ 0 ≤ jlr_i2 p x ∧ jlr_i2 p x < (p.nxc : ℤ)
      ∧ 0 ≤ jlr_j1 p y ∧ jlr_j1 p y < (p.nyc : ℤ)
      ∧ 0 ≤ jlr_j2 p y ∧ jlr_j2 p y < (p.nyc : ℤ))
    ∧ (0 ≤ jud_i1 p x ∧ jud_i1 p x < (p.nxc : ℤ)
      ∧ 0 ≤ jud_i2 p x ∧ jud_i2 p x < (p.nxc : ℤ)
      ∧ 0 ≤ jud_j1 p y ∧ jud_j1 p y < (p.nyc : ℤ)
      ∧ 0 ≤ jud_j2 p y ∧ jud_j2 p y < (p.nyc : ℤ))
    ∧ (0 ≤ jc_i1 p x ∧ jc_i1 p x < (p.nxc : ℤ)
      ∧ 0 ≤ jc_i2 p x ∧ jc_i2 p x < (p.nxc : ℤ)
      ∧ 0 ≤ jc_j1 p y ∧ jc_j1 p y < (p.nyc : ℤ)
      ∧ 0 ≤ jc_j2 p y ∧ jc_j2 p y < (p.nyc : ℤ)) := by
  have hdx : p.dx = p.Lx / p.nxc := rfl
  have hdy : p.dy = p.Ly / p.nyc := rfl
  have hbx : 0 ≤ ⌊x / p.dx⌋ ∧ ⌊x / p.dx⌋ < (p.nxc : ℤ) := by
    rw [hdx]; exact floor_div_bounds hLx hnx hx0 hxL
  have hby : 0 ≤ ⌊y / p.dy⌋ ∧ ⌊y / p.dy⌋ < (p.nyc : ℤ) := by
    rw [hdy]; exact floor_div_bounds hLy hny hy0 hyL
  have hcastx : (p.nxn : ℤ) - 1 = (p.nxc : ℤ) := by
    simp [Par.nxn]
  have hcasty : (p.nyn : ℤ) - 1 = (p.nyc : ℤ) := by
    simp [Par.nyn]
  have hlr2 : 0 ≤ jlr_i2 p x ∧ jlr_i2 p x < (p.nxc : ℤ) := by
    unfold jlr_i2
    rw [hcastx]
    split_ifs with h
    · omega
    · omega
  have hud2 : 0 ≤ jud_j2 p y ∧ jud_j2 p y < (p.nyc : ℤ) := by
    unfold jud_j2
    rw [hcasty]
    split_ifs with h
    · omega
    · omega
  have hmlrj1 := emod_bounds (⌊(y - p.dy / 2) / p.dy⌋) hny
  have hmlrj2 := emod_bounds (⌊(y - p.dy / 2) / p.dy⌋ + 1) hny
  have hmudi1 := emod_bounds (⌊(x - p.dx / 2) / p.dx⌋) hnx
  have hmudi2 := emod_bounds (⌊(x - p.dx / 2) / p.dx⌋ + 1) hnx
  refine ⟨rfl, rfl, ⟨hbx.1, hbx.2, hlr2.1, hlr2.2, hmlrj1.1, hmlrj1.2,
      hmlrj2.1, hmlrj2.2⟩,
    ⟨hmudi1.1, hmudi1.2, hmudi2.1, hmudi2.2, hby.1, hby.2, hud2.1,
      hud2.2⟩,
    ⟨hmudi1.1, hmudi1.2, hmudi2.1, hmudi2.2, hmlrj1.1, hmlrj1.2,
      hmlrj2.1, hmlrj2.2⟩⟩

/-- Witness for C9 at a concrete position on a concrete 2x2 grid. -/
theorem c9_deposit_fold_bounds_witness :
    ((0 : ℚ) ≤ 1 ∧ (1 : ℚ) < (Par.mk 2 2 0 4 4 (1 / 20)).Lx
      ∧ (0 : ℕ) < (Par.mk 2 2 0 4 4 (1 / 20)).nxc)
    ∧ 0 ≤ jlr_i1 (Par.mk 2 2 0 4 4 (1 / 20)) 1
    ∧ jlr_i1 (Par.mk 2 2 0 4 4 (1 / 20)) 1
      < ((Par.mk 2 2 0 4 4 (1 / 20)).nxc : ℤ) :=
  ⟨⟨by decide, by decide, by decide⟩,
    (c9_deposit_fold_bounds (Par.mk 2 2 0 4 4 (1 / 20)) 1 1 (by decide)
      (by decide) (by decide) (by decide) (by decide) (by decide)
      (by decide) (by decide)).2.2.1.1,
    (c9_deposit_fold_bounds (Par.mk 2 2 0 4 4 (1 / 20)) 1 1 (by decide)
      (by decide) (by decide) (by decide) (by decide) (by decide)
      (by decide) (by decide)).2.2.1.2.1⟩

/-- Python floating modulo a % m = a - m*floor(a/m), used for the periodic
position wrap xbar % Lx. -/
def qmod (a m : ℚ) : ℚ := a - m * ⌊a / m⌋

/-- The mutable simulation state read by the residual: the previous-step
fields and particle arrays (the globals Ex..Bz, x, y, u, v, w, QM, q of
iPiC_2D3V_cov_yee.py). -/
structure Sim where
  Ex : Field2
  Ey : Field2
  Ez : Field2
  Bx : Field2
  By : Field2
  Bz : Field2
  x : Vec
  y : Vec
  u : Vec
  v : Vec
  w : Vec
  QM : Vec
  q : Vec

/-- Time-centred velocity ubar = (u + unew)/2 of the residual
(iPiC_2D3V_cov_yee.py line 289), with unew decoded from the trial Krylov
vector. -/
def res_ubar (p : Par) (s : Sim) (xk : Vec) : Vec := fun i =>
  (s.u i + (krylov_to_phys p xk).u i) / 2

/-- Time-centred velocity vbar = (v + vnew)/2. -/
def res_vbar (p : Par) (s : Sim) (xk : Vec) : Vec := fun i =>
  (s.v i + (krylov_to_phys p xk).v i) / 2

/-- Time-centred velocity wbar = (w + wnew)/2. -/
def res_wbar (p : Par) (s : Sim) (xk : Vec) : Vec := fun i =>
  (s.w i + (krylov_to_phys p xk).w i) / 2

/-- Lorentz factor gbar of the residual: the source sets
relativistic = False, so the executed branch is gbar = np.ones(npart)
(line 298). -/
def res_gbar (_p : Par) (_s : Sim) (_xk : Vec) : Vec := fun _ => 1

/-- Time-centred particle x position xbar = (x + ubar/gbar*dt/2) % Lx
(lines 300-302). -/
def res_xbar (p : Par) (s : Sim) (xk : Vec) : Vec := fun i =>
  qmod (s.x i + res_ubar p s xk i / res_gbar p s xk i * p.dt / 2) p.Lx

/-- Time-centred particle y position ybar = (y + vbar/gbar*dt/2) % Ly. -/
def res_ybar (p : Par) (s : Sim) (xk : Vec) : Vec := fun i =>
  qmod (s.y i + res_vbar p s xk i / res_gbar p s xk i * p.dt / 2) p.Ly

/-- Particle list handed to the current deposition by the residual:
particle_to_grid_J(xbar, ybar, ubar/gbar, vbar/gbar, wbar/gbar, q)
(line 305). -/
def res_parts (p : Par) (s : Sim) (xk : Vec) : List Part6 :=
  (List.range p.npart).map fun i =>
    Part6.mk (res_xbar p s xk i) (res_ybar p s xk i)
      (res_ubar p s xk i / res_gbar p s xk i)
      (res_vbar p s xk i / res_gbar p s xk i)
      (res_wbar p s xk i / res_gbar p s xk i) (s.q i)

/-- Time-centred electric field Exbar = (Exnew + Ex)/2 (line 307). -/
def res_Exbar (p : Par) (s : Sim) (xk : Vec) : Field2 := fun i j =>
  ((krylov_to_phys p xk).Ex i j + s.Ex i j) / 2

/-- Time-centred electric field Eybar = (Eynew + Ey)/2. -/
def res_Eybar (p : Par) (s : Sim) (xk : Vec) : Field2 := fun i j =>
  ((krylov_to_phys p xk).Ey i j + s.Ey i j) / 2

/-- Time-centred electric field Ezbar = (Eznew + Ez)/2. -/
def res_Ezbar (p : Par) (s : Sim) (xk : Vec) : Field2 := fun i j =>
  ((krylov_to_phys p xk).Ez i j + s.Ez i j) / 2

/-- Half-step advanced magnetic field Bxbar = Bx - dt/2*curlE_x(Ebar)
(lines 310-311). -/
def res_Bxbar (p : Par) (s : Sim) (xk : Vec) : Field2 := fun i j =>
  s.Bx i j - p.dt / 2 * curlE_x p (identityGeom p) (res_Exbar p s xk)
    (res_Eybar p s xk) (res_Ezbar p s xk) i j

/-- Half-step advanced magnetic field Bybar = By - dt/2*curlE_y(Ebar). -/
def res_Bybar (p : Par) (s : Sim) (xk : Vec) : Field2 := fun i j =>
  s.By i j - p.dt / 2 * curlE_y p (identityGeom p) (res_Exbar p s xk)
    (res_Eybar p s xk) (res_Ezbar p s xk) i j

/-- Half-step advanced magnetic field Bzbar = Bz - dt/2*curlE_z(Ebar). -/
def res_Bzbar (p : Par) (s : Sim) (xk : Vec) : Field2 := fun i j =>
  s.Bz i j - p.dt / 2 * curlE_z p (identityGeom p) (res_Exbar p s xk)
    (res_Eybar p s xk) (res_Ezbar p s xk) i j

/-- Field residual resEx = Exnew - Ex - dt*curlB_x(Bbar) + dt*Jx
(line 317). -/
def res_resEx (p : Par) (s : Sim) (xk : Vec) : Field2 := fun i j =>
  (krylov_to_phys p xk).Ex i j - s.Ex i j
    - p.dt * curlB_x p (identityGeom p) (res_Bxbar p s xk)
      (res_Bybar p s xk) (res_Bzbar p s xk) i j
    + p.dt * (particle_to_grid_J p (res_parts p s xk)).1 i j

/-- Field residual resEy = Eynew - Ey - dt*curlB_y(Bbar) + dt*Jy. -/
def res_resEy (p : Par) (s : Sim) (xk : Vec) : Field2 := fun i j =>
  (krylov_to_phys p xk).Ey i j - s.Ey i j
    - p.dt * curlB_y p (identityGeom p) (res_Bxbar p s xk)
      (res_Bybar p s xk) (res_Bzbar p s xk) i j
    + p.dt * (particle_to_grid_J p (res_parts p s xk)).2.1 i j

/-- Field residual resEz = Eznew - Ez - dt*curlB_z(Bbar) + dt*Jz. -/
def res_resEz (p : Par) (s : Sim) (xk : Vec) : Field2 := fun i j =>
  (krylov_to_phys p xk).Ez i j - s.Ez i j
    - p.dt * curlB_z p (identityGeom p) (res_Bxbar p s xk)
      (res_Bybar p s xk) (res_Bzbar p s xk) i j
    + p.dt * (particle_to_grid_J p (res_parts p s xk)).2.2 i j

/-- Gathered time-centred Ex at the particle (line 321). -/
def res_Exp (p : Par) (s : Sim) (xk : Vec) : Vec := fun i =>
  grid_to_particle p (res_xbar p s xk i) (res_ybar p s xk i)
    (res_Exbar p s xk) .LR

/-- Gathered time-centred Ey at the particle. -/
def res_Eyp (p : Par) (s : Sim) (xk : Vec) : Vec := fun i =>
  grid_to_particle p (res_xbar p s xk i) (res_ybar p s xk i)
    (res_Eybar p s xk) .UD

/-- Gathered time-centred Ez at the particle. -/
def res_Ezp (p : Par) (s : Sim) (xk : Vec) : Vec := fun i =>
  grid_to_particle p (res_xbar p s xk i) (res_ybar p s xk i)
    (res_Ezbar p s xk) .C

/-- Gathered half-step Bx at the particle. -/
def res_Bxp (p : Par) (s : Sim) (xk : Vec) : Vec := fun i =>
  grid_to_particle p (res_xbar p s xk i) (res_ybar p s xk i)
    (res_Bxbar p s xk) .UD

/-- Gathered half-step By at the particle. -/
def res_Byp (p : Par) (s : Sim) (xk : Vec) : Vec := fun i =>
  grid_to_particle p (res_xbar p s xk i) (res_ybar p s xk i)
    (res_Bybar p s xk) .LR

/-- Gathered half-step Bz at the particle. -/
def res_Bzp (p : Par) (s : Sim) (xk : Vec) : Vec := fun i =>
  grid_to_particle p (res_xbar p s xk i) (res_ybar p s xk i)
    (res_Bzbar p s xk) .N

/-- Velocity residual resu = unew - u - QM*(Exp + vbar/gbar*Bzp -
wbar/gbar*Byp)*dt (line 328). -/
def res_resu (p : Par) (s : Sim) (xk : Vec) : Vec := fun i =>
  (krylov_to_phys p xk).u i - s.u i
    - s.QM i * (res_Exp p s xk i
      + res_vbar p s xk i / res_gbar p s xk i * res_Bzp p s xk i
      - res_wbar p s xk i / res_gbar p s xk i * res_Byp p s xk i) * p.dt

/-- Velocity residual resv = vnew - v - QM*(Eyp - ubar/gbar*Bzp +
wbar/gbar*Bxp)*dt (line 329). -/
def res_resv (p : Par) (s : Sim) (xk : Vec) : Vec := fun i =>
  (krylov_to_phys p xk).v i - s.v i
    - s.QM i * (res_Eyp p s xk i
      - res_ubar p s xk i / res_gbar p s xk i * res_Bzp p s xk i
      + res_wbar p s xk i / res_gbar p s xk i * res_Bxp p s xk i) * p.dt

/-- Velocity residual resw = wnew - w - QM*(Ezp + ubar/gbar*Byp -
vbar/gbar*Bxp)*dt (line 330). -/
def res_resw (p : Par) (s : Sim) (xk : Vec) : Vec := fun i =>
  (krylov_to_phys p xk).w i - s.w i
    - s.QM i * (res_Ezp p s xk i
      + res_ubar p s xk i / res_gbar p s xk i * res_Byp p s xk i
      - res_vbar p s xk i / res_gbar p s xk i * res_Bxp p s xk i) * p.dt

/-- The nonlinear residual of one implicit step, translated from residual
of iPiC_2D3V_cov_yee.py (lines 280-333): decode the trial vector, advance
positions, deposit current, half-advance B by the curl of the time-centred
E, form the field and velocity residuals, and re-encode. -/
def residual (p : Par) (s : Sim) (xk : Vec) : Vec :=
  phys_to_krylov p
    (Phys.mk (res_resEx p s xk) (res_resEy p s xk) (res_resEz p s xk)
      (res_resu p s xk) (res_resv p s xk) (res_resw p s xk))

/-- C1: decoding the residual of a trial Krylov vector gives, on every
in-range field slot, trial-field minus old-field minus dt times the B-type
curl of the half-updated magnetic field plus dt times the deposited
current, and on every particle velocity slot, trial-velocity minus
old-velocity minus dt times the charge-to-mass ratio times the
Lorentz-force terms formed from the gathered time-centred fields and the
time-centred velocity. -/
theorem c1_residual_formula (p : Par) (s : Sim) (xk : Vec)
    (iE jE iY jY iZ jZ kp : ℕ) (hiE : iE < p.nxn) (hjE : jE < p.nyc)
    (hiY : iY < p.nxc) (hjY : jY < p.nyn) (hiZ : iZ < p.nxc)
    (hjZ : jZ < p.nyc) (hk : kp < p.npart) :
    (krylov_to_phys p (residual p s xk)).Ex iE jE
      = (krylov_to_phys p xk).Ex iE jE - s.Ex iE jE
        - p.dt * curlB_x p (identityGeom p) (res_Bxbar p s xk)
          (res_Bybar p s xk) (res_Bzbar p s xk) iE jE
        + p.dt * (particle_to_grid_J p (res_parts p s xk)).1 iE jE
    ∧ (krylov_to_phys p (residual p s xk)).Ey iY jY
      = (krylov_to_phys p xk).Ey iY jY - s.Ey iY jY
        - p.dt * curlB_y p (identityGeom p) (res_Bxbar p s xk)
          (res_Bybar p s xk) (res_Bzbar p s xk) iY jY
        + p.dt * (particle_to_grid_J p (res_parts p s xk)).2.1 iY jY
    ∧ (krylov_to_phys p (residual p s xk)).Ez iZ jZ
      = (krylov_to_phys p xk).Ez iZ jZ - s.Ez iZ jZ
        - p.dt * curlB_z p (identityGeom p) (res_Bxbar p s xk)
          (res_Bybar p s xk) (res_Bzbar p s xk) iZ jZ
        + p.dt * (particle_to_grid_J p (res_parts p s xk)).2.2 iZ jZ
    ∧ (krylov_to_phys p (residual p s xk)).u kp
      = (krylov_to_phys p xk).u kp - s.u kp
        - s.QM kp * (res_Exp p s xk kp
          + res_vbar p s xk kp * res_Bzp p s xk kp
          - res_wbar p s xk kp * res_Byp p s xk kp) * p.dt
    ∧ (krylov_to_phys p (residual p s xk)).v kp
      = (krylov_to_phys p xk).v kp - s.v kp
        - s.QM kp * (res_Eyp p s xk kp
          - res_ubar p s xk kp * res_Bzp p s xk kp
          + res_wbar p s xk kp * res_Bxp p s xk kp) * p.dt
    ∧ (krylov_to_phys p (residual p s xk)).w kp
      = (krylov_to_phys p xk).w kp - s.w kp
        - s.QM kp * (res_Ezp p s xk kp
          + res_ubar p s xk kp * res_Byp p s xk kp
          - res_vbar p s xk kp * res_Bxp p s xk kp) * p.dt := by
  refine ⟨?_, ?_, ?_, ?_, ?_, ?_⟩
  · unfold residual
    rw [roundtrip_Ex p _ hiE hjE]
    rfl
  · unfold residual
    rw [roundtrip_Ey p _ hiY hjY]
    rfl
  · unfold residual
    rw [roundtrip_Ez p _ hiZ hjZ]
    rfl
  · unfold residual
    rw [roundtrip_u p _ hk]
    show res_resu p s xk kp = _
    simp [res_resu, res_gbar]
  · unfold residual
    rw [roundtrip_v p _ hk]
    show res_resv p s xk kp = _
    simp [res_resv, res_gbar]
  · unfold residual
    rw [roundtrip_w p _ hk]
    show res_resw p s xk kp = _
    simp [res_resw, res_gbar]

/-- Concrete 1x1 grid with one particle, used by witnesses. -/
def par0 : Par := Par.mk 1 1 1 4 4 (1 / 20)

/-- Concrete all-zero simulation state, used by witnesses. -/
def sim0 : Sim :=
  Sim.mk (fun _ _ => 0) (fun _ _ => 0) (fun _ _ => 0) (fun _ _ => 0)
    (fun _ _ => 0) (fun _ _ => 0) (fun _ => 0) (fun _ => 0) (fun _ => 0)
    (fun _ => 0) (fun _ => 0) (fun _ => 0) (fun _ => 0)

/-- Concrete zero Krylov vector, used by witnesses. -/
def vec0 : Vec := fun _ => 0

/-- Witness for C1 on the concrete 1x1 grid with one particle. -/
theorem c1_residual_formula_witness :
    ((0 : ℕ) < par0.nxn ∧ (0 : ℕ) < par0.nyc ∧ (0 : ℕ) < par0.nxc
      ∧ (0 : ℕ) < par0.nyn ∧ (0 : ℕ) < par0.npart)
    ∧ (krylov_to_phys par0 (residual par0 sim0 vec0)).Ex 0 0
      = (krylov_to_phys par0 vec0).Ex 0 0 - sim0.Ex 0 0
        - par0.dt * curlB_x par0 (identityGeom par0)
          (res_Bxbar par0 sim0 vec0) (res_Bybar par0 sim0 vec0)
          (res_Bzbar par0 sim0 vec0) 0 0
        + par0.dt * (particle_to_grid_J par0 (res_parts par0 sim0 vec0)).1
          0 0 :=
  ⟨⟨by decide, by decide, by decide, by decide, by decide⟩,
    (c1_residual_formula par0 sim0 vec0 0 0 0 0 0 0 0 (by decide)
      (by decide) (by decide) (by decide) (by decide) (by decide)
      (by decide)).1⟩

/-- One Picard update xkrylov - residual(xkrylov) (main cycle of
iPiC_2D3V_cov_yee.py, line 524). -/
def picardStep (res : Vec → Vec) (xv : Vec) : Vec := fun n => xv n - res xv n

/-- Squared Euclidean norm over the dim leading Krylov slots.  The source
compares norm(xkrylov - xkold) > tol with both sides nonnegative; the loop
below compares the squares, which is equivalent and keeps the state
rational. -/
def sqnorm (dim : ℕ) (v : Vec) : ℚ := ∑ n ∈ Finset.range dim, v n ^ 2

/-- The Picard while loop of the main cycle (iPiC_2D3V_cov_yee.py lines
516-526; identical in the staggered file, lines 1425-1435): while
err > tol and k <= kmax, increment k, update the iterate and remeasure
err.  The residual callable is a parameter, as in the source where the
loop calls the module-level residual.  The fuel argument only dominates
the remaining iterations; the loop stops through its own condition. -/
def picardAux (res : Vec → Vec) (dim : ℕ) (tol2 : ℚ) (kmax : ℕ) :
    ℕ → Vec → ℚ → ℕ → Vec × ℚ × ℕ
  | 0, xv, e2, k => (xv, e2, k)
  | fuel + 1, xv, e2, k =>
    if tol2 < e2 ∧ k ≤ kmax then
      picardAux res dim tol2 kmax fuel (picardStep res xv)
        (sqnorm dim (fun n => picardStep res xv n - xv n)) (k + 1)
    else (xv, e2, k)

/-- Entry of the Picard loop with the initial values of the source:
err = 1, k = 0, iterate = guess. -/
def picard (res : Vec → Vec) (dim : ℕ) (tol2 : ℚ) (kmax : ℕ)
    (guess : Vec) : Vec × ℚ × ℕ :=
  picardAux res dim tol2 kmax (kmax + 2) guess 1 0

/-- What the rest of the step consumes: sol = xkrylov, the bare final
iterate (line 528); the final err and k are local and never returned. -/
def picardSolve (res : Vec → Vec) (dim : ℕ) (tol2 : ℚ) (kmax : ℕ)
    (guess : Vec) : Vec :=
  (picard res dim tol2 kmax guess).1

/-- Length of the Krylov vector. -/
def krydim (p : Par) : ℕ :=
  p.nxn * p.nyc + p.nxc * p.nyn + p.nxc * p.nyc + 3 * p.npart

/-- The guess of one step: the previous-step fields and velocities encoded
into the Krylov vector (line 508). -/
def step_guess (p : Par) (s : Sim) : Vec :=
  phys_to_krylov p (Phys.mk s.Ex s.Ey s.Ez s.u s.v s.w)

/-- The Picard solve of one simulation step with the source constants
tol = 1e-14 (squared here) and kmax = 100. -/
def picard_step (p : Par) (s : Sim) : Vec × ℚ × ℕ :=
  picard (residual p s) (krydim p) ((1 / 10 ^ 14) ^ 2) 100 (step_guess p s)

/-- Error measured after the m-th Picard update (the value of err the loop
compares at iteration count m; before any update err is initialised
to 1). -/
def errSeq (res : Vec → Vec) (dim : ℕ) (guess : Vec) : ℕ → ℚ
  | 0 => 1
  | m + 1 => sqnorm dim (fun n =>
      (picardStep res)^[m + 1] guess n - (picardStep res)^[m] guess n)

/-- Full characterisation of a Picard loop exit state: the iterate is the
k-fold Picard update of the guess, 1 <= k <= kmax+1, the loop stopped
because the last error was at or below tolerance or the counter passed
kmax, every earlier error stayed above tolerance, and the reported error
is the one measured at the final count. -/
def picardGood (res : Vec → Vec) (dim : ℕ) (tol2 : ℚ) (kmax : ℕ)
    (guess : Vec) (r : Vec × ℚ × ℕ) : Prop :=
  r.1 = (picardStep res)^[r.2.2] guess
  ∧ 1 ≤ r.2.2 ∧ r.2.2 ≤ kmax + 1
  ∧ (r.2.1 ≤ tol2 ∨ r.2.2 = kmax + 1)
  ∧ (∀ m, 1 ≤ m → m < r.2.2 → tol2 < errSeq res dim guess m)
  ∧ r.2.1 = errSeq res dim guess r.2.2

theorem picardAux_spec (res : Vec → Vec) (dim : ℕ) (tol2 : ℚ) (kmax : ℕ)
    (guess : Vec) (htol : tol2 < 1) :
    ∀ fuel k, kmax + 2 = fuel + k → k ≤ kmax + 1 →
      (∀ m, 1 ≤ m → m < k → tol2 < errSeq res dim guess m) →
      picardGood res dim tol2 kmax guess
        (picardAux res dim tol2 kmax fuel ((picardStep res)^[k] guess)
          (errSeq res dim guess k) k) := by
  intro fuel
  induction fuel with
  | zero => intro k h1 h2 hpast; exact absurd h1 (by omega)
  | succ fuel ih =>
    intro k h1 h2 hpast
    by_cases hc : tol2 < errSeq res dim guess k ∧ k ≤ kmax
    · have hx : picardStep res ((picardStep res)^[k] guess)
          = (picardStep res)^[k + 1] guess :=
        (Function.iterate_succ_apply' _ _ _).symm
      have he : sqnorm dim (fun n =>
          picardStep res ((picardStep res)^[k] guess) n
            - (picardStep res)^[k] guess n)
          = errSeq res dim guess (k + 1) := by
        rw [hx]; rfl
      simp only [picardAux, if_pos hc, hx, he]
      exact ih (k + 1) (by omega) (by omega)
        (fun m hm1 hm2 => by
          by_cases hmk : m = k
          · exact hmk ▸ hc.1
          · exact hpast m hm1 (by omega))
    · simp only [picardAux, if_neg hc]
      have hk1 : 1 ≤ k := by
        by_contra hk0
        have hk : k = 0 := by omega
        exact hc ⟨hk ▸ htol, by omega⟩
      refine ⟨rfl, hk1, h2, ?_, hpast, rfl⟩
      rcases not_and_or.mp hc with h | h
      · exact Or.inl (le_of_not_lt h)
      · exact Or.inr (show k = kmax + 1 by omega)

theorem picard_spec (res : Vec → Vec) (dim : ℕ) (tol2 : ℚ) (kmax : ℕ)
    (guess : Vec) (htol : tol2 < 1) :
    picardGood res dim tol2 kmax guess (picard res dim tol2 kmax guess) :=
  picardAux_spec res dim tol2 kmax guess htol (kmax + 2) 0 (by omega)
    (by omega) (fun m hm1 hm2 => absurd hm2 (by omega))

/-- C2 (amended): the Picard solver starts from the guess encoded from the
previous-step fields and velocities, applies x mapsto x - residual(x) at
every iteration, and exits exactly when the measured error drops to or
below the tolerance or when the iteration counter exceeds kmax = 100; the
counter check happens before the increment, so the loop performs at least
one and at most 101 iterations. -/
theorem c2_picard_loop (p : Par) (s : Sim) :
    (picard_step p s).1
      = (picardStep (residual p s))^[(picard_step p s).2.2]
        (step_guess p s)
    ∧ 1 ≤ (picard_step p s).2.2
    ∧ (picard_step p s).2.2 ≤ 101
    ∧ ((picard_step p s).2.1 ≤ ((1 : ℚ) / 10 ^ 14) ^ 2
      ∨ (picard_step p s).2.2 = 101)
    ∧ (∀ m, 1 ≤ m → m < (picard_step p s).2.2 →
        ((1 : ℚ) / 10 ^ 14) ^ 2
          < errSeq (residual p s) (krydim p) (step_guess p s) m)
    ∧ (picard_step p s).2.1
      = errSeq (residual p s) (krydim p) (step_guess p s)
        ((picard_step p s).2.2) := by
  have h := picard_spec (residual p s) (krydim p) ((1 / 10 ^ 14) ^ 2) 100
    (step_guess p s) (by norm_num)
  exact h

/-- Witness for C2 on the concrete 1x1 state. -/
theorem c2_picard_loop_witness :
    1 ≤ (picard_step par0 sim0).2.2 ∧ (picard_step par0 sim0).2.2 ≤ 101 :=
  ⟨(c2_picard_loop par0 sim0).2.1, (c2_picard_loop par0 sim0).2.2.1⟩

theorem picardStep_const (c : ℚ) (g : Vec) :
    ∀ m, (picardStep (fun _ => fun _ => c))^[m] g
      = fun n => g n - m * c := by
  intro m
  induction m with
  | zero => funext n; simp
  | succ m ih =>
    rw [Function.iterate_succ_apply', ih]
    funext n
    simp only [picardStep]
    push_cast
    ring

theorem errSeq_const (c : ℚ) (g : Vec) (m : ℕ) (hm : 1 ≤ m) :
    errSeq (fun _ => fun _ => c) 1 g m = c ^ 2 := by
  obtain ⟨l, rfl⟩ : ∃ l, m = l + 1 := ⟨m - 1, by omega⟩
  show sqnorm 1 _ = c ^ 2
  rw [picardStep_const c g (l + 1), picardStep_const c g l]
  unfold sqnorm
  rw [Finset.sum_range_one]
  push_cast
  ring

theorem const_one_run :
    (picard (fun _ => fun _ => (1 : ℚ)) 1 ((1 / 10 ^ 14) ^ 2) 100
        (fun _ => 0)).2.2 = 101
    ∧ ((1 : ℚ) / 10 ^ 14) ^ 2
      < (picard (fun _ => fun _ => (1 : ℚ)) 1 ((1 / 10 ^ 14) ^ 2) 100
        (fun _ => 0)).2.1 := by
  have h := picard_spec (fun _ => fun _ => (1 : ℚ)) 1 ((1 / 10 ^ 14) ^ 2)
    100 (fun _ => 0) (by norm_num)
  obtain ⟨hit, hk1, hk2, hexit, hpast, herr⟩ := h
  have hcap : (picard (fun _ => fun _ => (1 : ℚ)) 1 ((1 / 10 ^ 14) ^ 2) 100
      (fun _ => 0)).2.2 = 101 := by
    rcases hexit with hle | hcap
    · exfalso
      rw [herr, errSeq_const 1 _ _ hk1] at hle
      norm_num at hle
    · exact hcap
  refine ⟨hcap, ?_⟩
  rw [herr, errSeq_const 1 _ _ hk1]
  norm_num

/-- Counterexample for C2 as stated: with a residual whose norm never
drops (constant 1 on one slot) and the source constants tol = 1e-14,
kmax = 100, the loop body executes 101 times: the iteration counter k of
the while loop reaches 101, because the condition k <= kmax is tested
before the increment.  The claim that the solver never performs more than
100 iterations is therefore false. -/
theorem c2_picard_loop_counterexample :
    (picard (fun _ => fun _ => (1 : ℚ)) 1 ((1 / 10 ^ 14) ^ 2) 100
        (fun _ => 0)).2.2 = 101
    ∧ 100 < (picard (fun _ => fun _ => (1 : ℚ)) 1 ((1 / 10 ^ 14) ^ 2) 100
        (fun _ => 0)).2.2 :=
  ⟨const_one_run.1, by rw [const_one_run.1]; omega⟩

/-- The state commit that follows the Picard loop in the main cycle of
iPiC_2D3V_cov_yee.py (lines 528-556, nonrelativistic branch, gbar = 1):
decode sol, push positions with the time-centred velocity and wrap them,
adopt the new velocities, advance B by the curl of the time-centred E,
then adopt the new E.  It consumes only sol; no error or iteration count
reaches it. -/
def step_commit (p : Par) (s : Sim) (sol : Vec) : Sim :=
  Sim.mk
    ((krylov_to_phys p sol).Ex)
    ((krylov_to_phys p sol).Ey)
    ((krylov_to_phys p sol).Ez)
    (fun i j => s.Bx i j - p.dt * curlE_x p (identityGeom p)
      (fun a b => ((krylov_to_phys p sol).Ex a b + s.Ex a b) / 2)
      (fun a b => ((krylov_to_phys p sol).Ey a b + s.Ey a b) / 2)
      (fun a b => ((krylov_to_phys p sol).Ez a b + s.Ez a b) / 2) i j)
    (fun i j => s.By i j - p.dt * curlE_y p (identityGeom p)
      (fun a b => ((krylov_to_phys p sol).Ex a b + s.Ex a b) / 2)
      (fun a b => ((krylov_to_phys p sol).Ey a b + s.Ey a b) / 2)
      (fun a b => ((krylov_to_phys p sol).Ez a b + s.Ez a b) / 2) i j)
    (fun i j => s.Bz i j - p.dt * curlE_z p (identityGeom p)
      (fun a b => ((krylov_to_phys p sol).Ex a b + s.Ex a b) / 2)
      (fun a b => ((krylov_to_phys p sol).Ey a b + s.Ey a b) / 2)
      (fun a b => ((krylov_to_phys p sol).Ez a b + s.Ez a b) / 2) i j)
    (fun i => qmod
      (s.x i + ((krylov_to_phys p sol).u i + s.u i) / 2 * p.dt) p.Lx)
    (fun i => qmod
      (s.y i + ((krylov_to_phys p sol).v i + s.v i) / 2 * p.dt) p.Ly)
    ((krylov_to_phys p sol).u)
    ((krylov_to_phys p sol).v)
    ((krylov_to_phys p sol).w)
    s.QM
    s.q

/-- One full simulation step as the main cycle performs it: Picard solve,
then unconditional commit of the returned iterate. -/
def advance (p : Par) (s : Sim) : Sim :=
  step_commit p s
    (picardSolve (residual p s) (krydim p) ((1 / 10 ^ 14) ^ 2) 100
      (step_guess p s))

/-- C4 (amended): the Picard solve hands the caller only the bare final
iterate and the main cycle commits it unconditionally; a run that exits
through the iteration cap is committed exactly like a converged run, and
any two runs whose final iterates coincide are indistinguishable to the
caller.  No distinguishable non-convergence outcome exists. -/
theorem c4_nonconvergence_silent (p : Par) (s : Sim) (res2 : Vec → Vec)
    (g2 : Vec)
    (h : (picard res2 (krydim p) ((1 / 10 ^ 14) ^ 2) 100 g2).1
      = (picard_step p s).1) :
    advance p s = step_commit p s ((picard_step p s).1)
    ∧ picardSolve res2 (krydim p) ((1 / 10 ^ 14) ^ 2) 100 g2
      = picardSolve (residual p s) (krydim p) ((1 / 10 ^ 14) ^ 2) 100
        (step_guess p s)
    ∧ step_commit p s
        (picardSolve res2 (krydim p) ((1 / 10 ^ 14) ^ 2) 100 g2)
      = advance p s := by
  have h2 : picardSolve res2 (krydim p) ((1 / 10 ^ 14) ^ 2) 100 g2
      = picardSolve (residual p s) (krydim p) ((1 / 10 ^ 14) ^ 2) 100
        (step_guess p s) := h
  exact ⟨rfl, h2, by rw [h2]; rfl⟩

/-- Witness for C4 on the concrete 1x1 state. -/
theorem c4_nonconvergence_silent_witness :
    ((picard (residual par0 sim0) (krydim par0) ((1 / 10 ^ 14) ^ 2) 100
        (step_guess par0 sim0)).1 = (picard_step par0 sim0).1)
    ∧ advance par0 sim0 = step_commit par0 sim0 ((picard_step par0 sim0).1) :=
  ⟨rfl, (c4_nonconvergence_silent par0 sim0 (residual par0 sim0)
    (step_guess par0 sim0) rfl).1⟩

/-- Counterexample for C4 as stated: a run that exhausts the iteration cap
with its error still above tolerance (constant residual 1) returns to the
caller exactly the same value as a converged run (zero residual seeded
with the failed iterate, which stops with error 0 at its first
iteration).  The caller cannot distinguish the capped exit from success:
nothing is reported. -/
theorem c4_nonconvergence_silent_counterexample :
    ((1 : ℚ) / 10 ^ 14) ^ 2
      < (picard (fun _ => fun _ => (1 : ℚ)) 1 ((1 / 10 ^ 14) ^ 2) 100
        (fun _ => 0)).2.1
    ∧ (picard (fun _ => fun _ => (0 : ℚ)) 1 ((1 / 10 ^ 14) ^ 2) 100
        (fun _ => (-101 : ℚ))).2.1 ≤ ((1 : ℚ) / 10 ^ 14) ^ 2
    ∧ picardSolve (fun _ => fun _ => (1 : ℚ)) 1 ((1 / 10 ^ 14) ^ 2) 100
        (fun _ => 0)
      = picardSolve (fun _ => fun _ => (0 : ℚ)) 1 ((1 / 10 ^ 14) ^ 2) 100
        (fun _ => (-101 : ℚ)) := by
  obtain ⟨hit0, hk01, hk02, hexit0, hpast0, herr0⟩ :=
    picard_spec (fun _ => fun _ => (0 : ℚ)) 1 ((1 / 10 ^ 14) ^ 2) 100
      (fun _ => (-101 : ℚ)) (by norm_num)
  have hk0 : (picard (fun _ => fun _ => (0 : ℚ)) 1 ((1 / 10 ^ 14) ^ 2) 100
      (fun _ => (-101 : ℚ))).2.2 = 1 := by
    by_contra hne
    have := hpast0 1 le_rfl (by omega)
    rw [errSeq_const 0 _ 1 le_rfl] at this
    norm_num at this
  refine ⟨const_one_run.2, ?_, ?_⟩
  · rw [herr0, hk0, errSeq_const 0 _ 1 le_rfl]
    norm_num
  · have hspec1 := (picard_spec (fun _ => fun _ => (1 : ℚ)) 1
      ((1 / 10 ^ 14) ^ 2) 100 (fun _ => 0) (by norm_num)).1
    unfold picardSolve
    rw [hspec1, const_one_run.1, picardStep_const, hit0, hk0,
      picardStep_const]
    funext n
    push_cast
    ring

/-- A 3x3 matrix of analytic inverse-Jacobian entries at one grid point
(the j11..j33 values of perturbed_inverse_jacobian_elements in
iPiC_2D3V_cov_yee_staggerd_timestep.py, lines 537-547). -/
structure Mat3 where
  a11 : ℚ
  a12 : ℚ
  a13 : ℚ
  a21 : ℚ
  a22 : ℚ
  a23 : ℚ
  a31 : ℚ
  a32 : ℚ
  a33 : ℚ
  deriving DecidableEq

/-- Determinant of a 3x3 matrix (np.linalg.det). -/
def det3 (m : Mat3) : ℚ :=
  m.a11 * (m.a22 * m.a33 - m.a23 * m.a32)
    - m.a12 * (m.a21 * m.a33 - m.a23 * m.a31)
    + m.a13 * (m.a21 * m.a32 - m.a22 * m.a31)

/-- Closed-form 3x3 matrix inverse.  numpy.linalg.inv raises LinAlgError
on a singular input, which aborts the run; here that failure is the none
branch, taken exactly when the determinant is zero. -/
def inv3 (m : Mat3) : Option Mat3 :=
  if det3 m = 0 then none
  else some (Mat3.mk
    ((m.a22 * m.a33 - m.a23 * m.a32) / det3 m)
    ((m.a13 * m.a32 - m.a12 * m.a33) / det3 m)
    ((m.a12 * m.a23 - m.a13 * m.a22) / det3 m)
    ((m.a23 * m.a31 - m.a21 * m.a33) / det3 m)
    ((m.a11 * m.a33 - m.a13 * m.a31) / det3 m)
    ((m.a13 * m.a21 - m.a11 * m.a23) / det3 m)
    ((m.a21 * m.a32 - m.a22 * m.a31) / det3 m)
    ((m.a12 * m.a31 - m.a11 * m.a32) / det3 m)
    ((m.a11 * m.a22 - m.a12 * m.a21) / det3 m))

/-- Per-point geometry data computed by define_geometry of
iPiC_2D3V_cov_yee_staggerd_timestep.py (lines 549-657): the Jacobian
entries, the two determinants and the nine metric-tensor entries
(inner products of Jacobian columns). -/
structure GeomPoint where
  J11 : ℚ
  J12 : ℚ
  J13 : ℚ
  J21 : ℚ
  J22 : ℚ
  J23 : ℚ
  J31 : ℚ
  J32 : ℚ
  J33 : ℚ
  jdet : ℚ
  Jdet : ℚ
  g11 : ℚ
  g21 : ℚ
  g31 : ℚ
  g12 : ℚ
  g22 : ℚ
  g32 : ℚ
  g13 : ℚ
  g23 : ℚ
  g33 : ℚ
  deriving DecidableEq

/-- The per-point body of define_geometry: invert the analytic
inverse-Jacobian (failing exactly on a singular matrix, as the
np.linalg.inv call does), record both determinants, the Jacobian entries
and the metric entries g = transpose(J)*J.  No sign check of any
determinant is performed. -/
def define_geometry_point (m : Mat3) : Option GeomPoint :=
  match inv3 m with
  | none => none
  | some J => some (GeomPoint.mk
      J.a11 J.a12 J.a13 J.a21 J.a22 J.a23 J.a31 J.a32 J.a33
      (det3 m) (det3 J)
      (J.a11 * J.a11 + J.a21 * J.a21 + J.a31 * J.a31)
      (J.a11 * J.a12 + J.a21 * J.a22 + J.a31 * J.a32)
      (J.a11 * J.a13 + J.a21 * J.a23 + J.a31 * J.a33)
      (J.a11 * J.a12 + J.a21 * J.a22 + J.a31 * J.a32)
      (J.a12 * J.a12 + J.a22 * J.a22 + J.a32 * J.a32)
      (J.a12 * J.a13 + J.a22 * J.a23 + J.a32 * J.a33)
      (J.a11 * J.a13 + J.a21 * J.a23 + J.a31 * J.a33)
      (J.a12 * J.a13 + J.a22 * J.a23 + J.a32 * J.a33)
      (J.a13 * J.a13 + J.a23 * J.a23 + J.a33 * J.a33))

/-- Geometry initialisation over the grid points (the nested loops of
define_geometry): the run survives only if every per-point inversion
succeeds; the first singular point aborts the whole initialisation. -/
def define_geometry (ms : List Mat3) : Option (List GeomPoint) :=
  ms.mapM define_geometry_point

theorem define_geometry_point_none (m : Mat3) :
    define_geometry_point m = none ↔ det3 m = 0 := by
  unfold define_geometry_point inv3
  by_cases h : det3 m = 0 <;> simp [h]

theorem define_geometry_cons (m : Mat3) (ms : List Mat3) :
    define_geometry (m :: ms) = none
      ↔ (define_geometry_point m = none ∨ define_geometry ms = none) := by
  unfold define_geometry
  rw [List.mapM_cons]
  cases hdp : define_geometry_point m with
  | none => simp [hdp]
  | some g =>
    cases hms : ms.mapM define_geometry_point with
    | none => simp [hdp, hms]
    | some l => simp [hdp, hms]

/-- C6 (amended): geometry initialisation aborts, before any stepping, if
and only if the analytic inverse-Jacobian is exactly singular at some
grid point (the failed matrix inversion); a non-positive Jacobian
determinant at an invertible point is not detected and does not abort. -/
theorem c6_geometry_abort (ms : List Mat3) :
    define_geometry ms = none ↔ ∃ m ∈ ms, det3 m = 0 := by
  induction ms with
  | nil =>
    unfold define_geometry
    rw [List.mapM_nil]
    simp
  | cons m ms ih =>
    rw [define_geometry_cons, define_geometry_point_none m, ih]
    simp

/-- Witness for C6: a singular point (the zero matrix) aborts the
initialisation. -/
theorem c6_geometry_abort_witness :
    define_geometry [Mat3.mk 0 0 0 0 0 0 0 0 0] = none :=
  (c6_geometry_abort [Mat3.mk 0 0 0 0 0 0 0 0 0]).mpr
    ⟨Mat3.mk 0 0 0 0 0 0 0 0 0, by simp, by norm_num [det3]⟩

/-- Counterexample for C6 as stated: an orientation-reversing but
invertible inverse-Jacobian (diagonal -1, 1, 1) passes geometry
initialisation, and the stored Jacobian determinant is -1: the
non-positive determinant is neither detected nor fatal. -/
theorem c6_geometry_abort_counterexample :
    (define_geometry [Mat3.mk (-1) 0 0 0 1 0 0 0 1]).isSome = true
    ∧ ((define_geometry [Mat3.mk (-1) 0 0 0 1 0 0 0 1]).map
        (fun l => l.map GeomPoint.Jdet)) = some [(-1 : ℚ)] := by
  have hd : det3 (Mat3.mk (-1) 0 0 0 1 0 0 0 1) = -1 := by
    norm_num [det3]
  have hinv : inv3 (Mat3.mk (-1) 0 0 0 1 0 0 0 1)
      = some (Mat3.mk (-1) 0 0 0 1 0 0 0 1) := by
    unfold inv3
    rw [hd]
    norm_num
  constructor
  · unfold define_geometry
    rw [List.mapM_cons, List.mapM_nil]
    simp [define_geometry_point, hinv]
  · unfold define_geometry
    rw [List.mapM_cons, List.mapM_nil]
    simp [define_geometry_point, hinv]
    norm_num [det3]

end GRiPiC
